import Mathlib

/-!
Verification of the eco-x402 payment-gated request pipeline.

This development shallowly embeds the core of the repository — the
PaymentCodec (src/codec/PaymentCodec.ts), the x402 Express middleware
(x402Middleware.ts: route matching, payment validation, the request
handler) — as executable Lean definitions, and proves properties of the
embedded code.

Modelling conventions:
* JavaScript strings are modelled as Lean String / List Char.
* Byte sequences (Node Buffer) are List Nat with every entry < 256.
* JSON values are the inductive Json family below; JSON numbers are
  modelled as integers (every number handled by this code path is an
  integer-valued one; JS doubles appear only in usdToBaseUnits, which has
  its own exact IEEE-754 binary64 model further below).
* Thrown JS exceptions are modelled with Except String.
-/

set_option maxRecDepth 40000

namespace X402

/-- Digit character for n < 10. -/
def digitChar (n : Nat) : Char := Char.ofNat (48 + n)

/-- Lowercase hex digit character for n < 16 (as produced by JS number
formatting and JSON.stringify control-character escapes). -/
def hexDigitChar (n : Nat) : Char :=
  if n < 10 then Char.ofNat (48 + n) else Char.ofNat (87 + n)

/-- Numeric value of a hex digit (either case), none for other chars. -/
def hexVal (c : Char) : Option Nat :=
  if '0' ≤ c ∧ c ≤ '9' then some (c.toNat - 48)
  else if 'a' ≤ c ∧ c ≤ 'f' then some (c.toNat - 87)
  else if 'A' ≤ c ∧ c ≤ 'F' then some (c.toNat - 55)
  else none

/-- Decimal digits of a natural number, most significant first.
Fuel-structural so that it reduces in the kernel; fuel > 0 and n < 10^fuel
always hold at call sites via natChars. -/
def natCharsAux : Nat → Nat → List Char
  | 0, _ => []
  | fuel + 1, n =>
    if n < 10 then [digitChar n]
    else natCharsAux fuel (n / 10) ++ [digitChar (n % 10)]

/-- Decimal representation of a natural number (as JS prints integers). -/
def natChars (n : Nat) : List Char := natCharsAux (n + 1) n

/-- Decimal representation of an integer (as JS prints integer values). -/
def intChars (i : Int) : List Char :=
  if i < 0 then '-' :: natChars i.natAbs else natChars i.natAbs

/-- Accumulating decimal-digit scanner: consumes leading digits, returns
the accumulated value and the unconsumed remainder. -/
def parseDigitsAux : Nat → List Char → Nat × List Char
  | acc, [] => (acc, [])
  | acc, c :: r =>
    if c.isDigit then parseDigitsAux (acc * 10 + (c.toNat - 48)) r else (acc, c :: r)

/-- Value of a list of decimal digit characters. -/
def digitsVal (ds : List Char) : Nat :=
  ds.foldl (fun a c => a * 10 + (c.toNat - 48)) 0

theorem digitChar_toNat (m : Nat) (h : m < 10) : (digitChar m).toNat = 48 + m := by
  interval_cases m <;> decide

theorem digitChar_isDigit (m : Nat) (h : m < 10) : (digitChar m).isDigit = true := by
  interval_cases m <;> decide

theorem digitsVal_append_digit (l : List Char) (d : Char) :
    digitsVal (l ++ [d]) = digitsVal l * 10 + (d.toNat - 48) := by
  simp [digitsVal, List.foldl_append]

theorem digitsFoldl_shift (l : List Char) : ∀ (a : Nat),
    l.foldl (fun a c => a * 10 + (c.toNat - 48)) a = a * 10 ^ l.length + digitsVal l := by
  induction l with
  | nil => intro a; simp [digitsVal]
  | cons x l ihl =>
    intro a
    have hx : digitsVal (x :: l) =
        l.foldl (fun a c => a * 10 + (c.toNat - 48)) (x.toNat - 48) := by
      simp [digitsVal, List.foldl_cons]
    rw [List.foldl_cons, ihl, hx, ihl (x.toNat - 48), List.length_cons]
    ring

theorem parseDigitsAux_digits_block (ds : List Char) :
    ∀ acc rest, (∀ c ∈ ds, c.isDigit) →
      parseDigitsAux acc (ds ++ rest) =
        parseDigitsAux (acc * 10 ^ ds.length + digitsVal ds) rest := by
  induction ds with
  | nil => intro acc rest _; simp [digitsVal]
  | cons c ds ih =>
    intro acc rest h
    have hc : c.isDigit := h c (by simp)
    have hds : ∀ x ∈ ds, x.isDigit := fun x hx => h x (by simp [hx])
    simp only [List.cons_append, parseDigitsAux, hc, if_pos, List.append_eq]
    rw [ih _ rest hds]
    congr 1
    have hx : digitsVal (c :: ds) =
        ds.foldl (fun a x => a * 10 + (x.toNat - 48)) (c.toNat - 48) := by
      simp [digitsVal, List.foldl_cons]
    rw [hx, digitsFoldl_shift ds, List.length_cons]
    ring

theorem parseDigitsAux_stop (acc : Nat) (rest : List Char)
    (h : rest = [] ∨ ∃ c r, rest = c :: r ∧ c.isDigit = false) :
    parseDigitsAux acc rest = (acc, rest) := by
  rcases h with h | ⟨c, r, rfl, hc⟩
  · subst h; rfl
  · simp [parseDigitsAux, hc]

theorem natCharsAux_digits : ∀ fuel n, ∀ c ∈ natCharsAux fuel n, c.isDigit := by
  intro fuel
  induction fuel with
  | zero => intro n c hc; simp [natCharsAux] at hc
  | succ fuel ih =>
    intro n c hc
    by_cases h : n < 10
    · simp [natCharsAux, h] at hc
      subst hc
      exact digitChar_isDigit n h
    · simp [natCharsAux, h] at hc
      rcases hc with hc | hc
      · exact ih _ c hc
      · subst hc
        exact digitChar_isDigit _ (Nat.mod_lt _ (by norm_num))

theorem natCharsAux_val : ∀ fuel n, n < 10 ^ fuel →
    digitsVal (natCharsAux fuel n) = n := by
  intro fuel
  induction fuel with
  | zero => intro n h; simp [pow_zero] at h; simp [natCharsAux, digitsVal, h]
  | succ fuel ih =>
    intro n h
    by_cases h10 : n < 10
    · simp only [natCharsAux, h10, if_pos]
      have hd := digitChar_toNat n h10
      simp [digitsVal, List.foldl]
      omega
    · simp only [natCharsAux, h10, if_neg, not_false_iff]
      have hdiv : n / 10 < 10 ^ fuel := by
        have h2 : n < 10 * 10 ^ fuel := by rw [pow_succ] at h; omega
        exact Nat.div_lt_of_lt_mul h2
      rw [digitsVal_append_digit, ih _ hdiv,
        digitChar_toNat _ (Nat.mod_lt _ (by norm_num))]
      omega

theorem natCharsAux_ne_nil (fuel n : Nat) (h : 0 < fuel) :
    natCharsAux fuel n ≠ [] := by
  cases fuel with
  | zero => omega
  | succ fuel =>
    by_cases h10 : n < 10 <;> simp [natCharsAux, h10]

theorem natChars_digits (n : Nat) : ∀ c ∈ natChars n, c.isDigit :=
  natCharsAux_digits (n + 1) n

theorem natChars_val (n : Nat) : digitsVal (natChars n) = n := by
  apply natCharsAux_val
  calc n < 10 ^ n := Nat.lt_pow_self (by norm_num) n
    _ ≤ 10 ^ (n + 1) := Nat.pow_le_pow_right (by norm_num) (Nat.le_succ n)

theorem natChars_ne_nil (n : Nat) : natChars n ≠ [] :=
  natCharsAux_ne_nil (n + 1) n (Nat.succ_pos n)

-- ===========================================================================
-- Base64 (the Buffer 'base64' text encoding used by the PaymentCodec)
-- ===========================================================================

/-- Character of the standard base64 alphabet at index n < 64. -/
def b64Char (n : Nat) : Char :=
  if n < 26 then Char.ofNat (65 + n)
  else if n < 52 then Char.ofNat (71 + n)
  else if n < 62 then Char.ofNat (n - 4)
  else if n = 62 then '+'
  else '/'

/-- Index of a character in the base64 alphabet, none for other chars. -/
def sextetVal (c : Char) : Option Nat :=
  if 'A' ≤ c ∧ c ≤ 'Z' then some (c.toNat - 65)
  else if 'a' ≤ c ∧ c ≤ 'z' then some (c.toNat - 71)
  else if '0' ≤ c ∧ c ≤ '9' then some (c.toNat + 4)
  else if c = '+' then some 62
  else if c = '/' then some 63
  else none

/-- Standard base64 encoding with '=' padding, as produced by Node's
Buffer.toString with the base64 encoding. -/
def b64encode : List Nat → List Char
  | [] => []
  | [b1] => [b64Char (b1 / 4), b64Char (b1 % 4 * 16), '=', '=']
  | [b1, b2] => [b64Char (b1 / 4), b64Char (b1 % 4 * 16 + b2 / 16), b64Char (b2 % 16 * 4), '=']
  | b1 :: b2 :: b3 :: rest =>
    b64Char (b1 / 4) :: b64Char (b1 % 4 * 16 + b2 / 16) ::
      b64Char (b2 % 16 * 4 + b3 / 64) :: b64Char (b3 % 64) :: b64encode rest

/-- Base64 decoding of well-formed base64 text (4-character groups with
optional final padding). Inputs outside this shape yield none; Node's
decoder is more forgiving on malformed text, but every wire string this
development evaluates is well-formed. -/
def b64decode : List Char → Option (List Nat)
  | [] => some []
  | c1 :: c2 :: c3 :: c4 :: rest =>
    match sextetVal c1, sextetVal c2 with
    | some s1, some s2 =>
      if c3 = '=' then
        if c4 = '=' ∧ rest = [] then some [s1 * 4 + s2 / 16] else none
      else
        match sextetVal c3 with
        | some s3 =>
          if c4 = '=' then
            if rest = [] then some [s1 * 4 + s2 / 16, s2 % 16 * 16 + s3 / 4] else none
          else
            match sextetVal c4 with
            | some s4 =>
              (b64decode rest).map
                (fun bs => (s1 * 4 + s2 / 16) :: (s2 % 16 * 16 + s3 / 4) :: (s3 % 4 * 64 + s4) :: bs)
            | none => none
        | none => none
    | _, _ => none
  | _ => none

theorem sextetVal_b64Char : ∀ s, s < 64 → sextetVal (b64Char s) = some s := by decide

theorem b64Char_ne_pad : ∀ s, s < 64 → b64Char s ≠ '=' := by decide

theorem b64_roundtrip : ∀ bs, (∀ b ∈ bs, b < 256) → b64decode (b64encode bs) = some bs := by
  intro bs
  induction bs using b64encode.induct with
  | case1 => intro _; rfl
  | case2 b1 =>
    intro h
    have hb1 : b1 < 256 := h b1 (by simp)
    have h1 : b1 / 4 < 64 := by omega
    have h2 : b1 % 4 * 16 < 64 := by omega
    simp [b64encode, b64decode, sextetVal_b64Char _ h1, sextetVal_b64Char _ h2]
    omega
  | case3 b1 b2 =>
    intro h
    have hb1 : b1 < 256 := h b1 (by simp)
    have hb2 : b2 < 256 := h b2 (by simp)
    have h1 : b1 / 4 < 64 := by omega
    have h2 : b1 % 4 * 16 + b2 / 16 < 64 := by omega
    have h3 : b2 % 16 * 4 < 64 := by omega
    simp [b64encode, b64decode, sextetVal_b64Char _ h1, sextetVal_b64Char _ h2,
      sextetVal_b64Char _ h3, b64Char_ne_pad _ h3]
    omega
  | case4 b1 b2 b3 rest ih =>
    intro h
    have hb1 : b1 < 256 := h b1 (by simp)
    have hb2 : b2 < 256 := h b2 (by simp)
    have hb3 : b3 < 256 := h b3 (by simp)
    have hrest : ∀ b ∈ rest, b < 256 := fun b hb => h b (by simp [hb])
    have h1 : b1 / 4 < 64 := by omega
    have h2 : b1 % 4 * 16 + b2 / 16 < 64 := by omega
    have h3 : b2 % 16 * 4 + b3 / 64 < 64 := by omega
    have h4 : b3 % 64 < 64 := by omega
    simp [b64encode, b64decode, sextetVal_b64Char _ h1, sextetVal_b64Char _ h2,
      sextetVal_b64Char _ h3, sextetVal_b64Char _ h4, b64Char_ne_pad _ h3,
      b64Char_ne_pad _ h4, ih hrest]
    omega

-- ===========================================================================
-- UTF-8 (the Buffer utf-8 byte encoding used by the PaymentCodec)
-- ===========================================================================

/-- UTF-8 bytes of one Unicode scalar value. -/
def utf8EncodeChar (c : Char) : List Nat :=
  let n := c.toNat
  if n < 128 then [n]
  else if n < 2048 then [192 + n / 64, 128 + n % 64]
  else if n < 65536 then [224 + n / 4096, 128 + n / 64 % 64, 128 + n % 64]
  else [240 + n / 262144, 128 + n / 4096 % 64, 128 + n / 64 % 64, 128 + n % 64]

/-- UTF-8 bytes of a character sequence. -/
def utf8Encode : List Char → List Nat
  | [] => []
  | c :: cs => utf8EncodeChar c ++ utf8Encode cs

/-- Char from a scalar value when it is a valid Unicode scalar. -/
def charOfNat? (n : Nat) : Option Char :=
  if n < 55296 ∨ (57343 < n ∧ n < 1114112) then some (Char.ofNat n) else none

/-- Cons the character for scalar value n onto a decoded tail, if both exist. -/
def utf8Finish (n : Nat) (orest : Option (List Char)) : Option (List Char) :=
  match charOfNat? n, orest with
  | some c, some cs => some (c :: cs)
  | _, _ => none

/-- Take one continuation byte (value in [128, 192)) off a byte list. -/
def contByte (l : List Nat) : Option (Nat × List Nat) :=
  match l with
  | b :: r => if 128 ≤ b ∧ b < 192 then some (b - 128, r) else none
  | [] => none

/-- UTF-8 decoder (fuel-structural over the byte list length). -/
def utf8DecodeAux : Nat → List Nat → Option (List Char)
  | _, [] => some []
  | 0, _ :: _ => none
  | fuel + 1, b :: rest =>
    if b < 128 then utf8Finish b (utf8DecodeAux fuel rest)
    else if b < 192 then none
    else if b < 224 then
      match contByte rest with
      | some (v2, r) => utf8Finish ((b - 192) * 64 + v2) (utf8DecodeAux fuel r)
      | none => none
    else if b < 240 then
      match contByte rest with
      | some (v2, r1) =>
        match contByte r1 with
        | some (v3, r) => utf8Finish ((b - 224) * 4096 + v2 * 64 + v3) (utf8DecodeAux fuel r)
        | none => none
      | none => none
    else if b < 248 then
      match contByte rest with
      | some (v2, r1) =>
        match contByte r1 with
        | some (v3, r2) =>
          match contByte r2 with
          | some (v4, r) =>
            utf8Finish ((b - 240) * 262144 + v2 * 4096 + v3 * 64 + v4) (utf8DecodeAux fuel r)
          | none => none
        | none => none
      | none => none
    else none

/-- UTF-8 decoding of a byte list. -/
def utf8Decode (bs : List Nat) : Option (List Char) := utf8DecodeAux bs.length bs

theorem char_toNat_valid (c : Char) :
    c.toNat < 55296 ∨ (57343 < c.toNat ∧ c.toNat < 1114112) := by
  rcases c.valid with h | ⟨h1, h2⟩
  · left
    exact h
  · right
    exact ⟨h1, h2⟩

theorem charOfNat?_toNat (c : Char) : charOfNat? c.toNat = some c := by
  simp [charOfNat?, char_toNat_valid c, Char.ofNat_toNat]

theorem utf8Encode_bytes_lt : ∀ cs, ∀ b ∈ utf8Encode cs, b < 256 := by
  intro cs
  induction cs with
  | nil => intro b hb; simp [utf8Encode] at hb
  | cons c cs ih =>
    intro b hb
    simp only [utf8Encode, List.mem_append] at hb
    rcases hb with hb | hb
    · have hval : c.toNat < 1114112 := by
        rcases char_toNat_valid c with h | ⟨_, h⟩ <;> omega
      by_cases h1 : c.toNat < 128
      · simp [utf8EncodeChar, h1] at hb
        omega
      · by_cases h2 : c.toNat < 2048
        · simp [utf8EncodeChar, h1, h2] at hb
          rcases hb with hb | hb <;> omega
        · by_cases h3 : c.toNat < 65536
          · simp [utf8EncodeChar, h1, h2, h3] at hb
            rcases hb with hb | hb | hb <;> omega
          · simp [utf8EncodeChar, h1, h2, h3] at hb
            rcases hb with hb | hb | hb | hb <;> omega
    · exact ih b hb

theorem utf8DecodeAux_encode : ∀ cs fuel, (utf8Encode cs).length ≤ fuel →
    utf8DecodeAux fuel (utf8Encode cs) = some cs := by
  intro cs
  induction cs with
  | nil => intro fuel _; cases fuel <;> rfl
  | cons c cs ih =>
    intro fuel hf
    have hval : c.toNat < 55296 ∨ (57343 < c.toNat ∧ c.toNat < 1114112) := char_toNat_valid c
    have hval2 : c.toNat < 1114112 := by rcases hval with h | ⟨_, h⟩ <;> omega
    by_cases h1 : c.toNat < 128
    · have henc : utf8Encode (c :: cs) = c.toNat :: utf8Encode cs := by
        simp [utf8Encode, utf8EncodeChar, h1]
      rw [henc] at hf ⊢
      cases fuel with
      | zero => simp at hf
      | succ fuel =>
        have hrec : utf8DecodeAux fuel (utf8Encode cs) = some cs := by
          apply ih
          simp at hf
          omega
        simp only [utf8DecodeAux, if_pos h1, hrec, utf8Finish, charOfNat?_toNat c]
    · by_cases h2 : c.toNat < 2048
      · have henc : utf8Encode (c :: cs) =
            (192 + c.toNat / 64) :: (128 + c.toNat % 64) :: utf8Encode cs := by
          simp [utf8Encode, utf8EncodeChar, h1, h2]
        rw [henc] at hf ⊢
        cases fuel with
        | zero => simp at hf
        | succ fuel =>
          have hrec : utf8DecodeAux fuel (utf8Encode cs) = some cs := by
            apply ih
            simp at hf
            omega
          have hb : ¬ (192 + c.toNat / 64 < 128) := by omega
          have hb2 : ¬ (192 + c.toNat / 64 < 192) := by omega
          have hb3 : 192 + c.toNat / 64 < 224 := by omega
          have e2 : 128 + c.toNat % 64 - 128 = c.toNat % 64 := by omega
          have hcb : contByte ((128 + c.toNat % 64) :: utf8Encode cs) =
              some (c.toNat % 64, utf8Encode cs) := by
            simp only [contByte]
            rw [if_pos (by omega : 128 ≤ 128 + c.toNat % 64 ∧ 128 + c.toNat % 64 < 192), e2]
          have hrecon : (192 + c.toNat / 64 - 192) * 64 + c.toNat % 64 = c.toNat := by omega
          simp only [utf8DecodeAux, if_neg hb, if_neg hb2, if_pos hb3, hcb, hrecon,
            utf8Finish, charOfNat?_toNat c, hrec]
      · by_cases h3 : c.toNat < 65536
        · have henc : utf8Encode (c :: cs) = (224 + c.toNat / 4096) ::
              (128 + c.toNat / 64 % 64) :: (128 + c.toNat % 64) :: utf8Encode cs := by
            simp [utf8Encode, utf8EncodeChar, h1, h2, h3]
          rw [henc] at hf ⊢
          cases fuel with
          | zero => simp at hf
          | succ fuel =>
            have hrec : utf8DecodeAux fuel (utf8Encode cs) = some cs := by
              apply ih
              simp at hf
              omega
            have hb : ¬ (224 + c.toNat / 4096 < 128) := by omega
            have hb2 : ¬ (224 + c.toNat / 4096 < 192) := by omega
            have hb3 : ¬ (224 + c.toNat / 4096 < 224) := by omega
            have hb4 : 224 + c.toNat / 4096 < 240 := by omega
            have e2 : 128 + c.toNat / 64 % 64 - 128 = c.toNat / 64 % 64 := by omega
            have e3 : 128 + c.toNat % 64 - 128 = c.toNat % 64 := by omega
            have hcb2 : contByte ((128 + c.toNat / 64 % 64) ::
                (128 + c.toNat % 64) :: utf8Encode cs) =
                some (c.toNat / 64 % 64, (128 + c.toNat % 64) :: utf8Encode cs) := by
              simp only [contByte]
              rw [if_pos (by omega :
                128 ≤ 128 + c.toNat / 64 % 64 ∧ 128 + c.toNat / 64 % 64 < 192), e2]
            have hcb3 : contByte ((128 + c.toNat % 64) :: utf8Encode cs) =
                some (c.toNat % 64, utf8Encode cs) := by
              simp only [contByte]
              rw [if_pos (by omega : 128 ≤ 128 + c.toNat % 64 ∧ 128 + c.toNat % 64 < 192), e3]
            have hrecon : (224 + c.toNat / 4096 - 224) * 4096 +
                c.toNat / 64 % 64 * 64 + c.toNat % 64 = c.toNat := by omega
            simp only [utf8DecodeAux, if_neg hb, if_neg hb2, if_neg hb3, if_pos hb4, hcb2, hcb3,
              hrecon, utf8Finish, charOfNat?_toNat c, hrec]
        · have henc : utf8Encode (c :: cs) = (240 + c.toNat / 262144) ::
              (128 + c.toNat / 4096 % 64) :: (128 + c.toNat / 64 % 64) ::
              (128 + c.toNat % 64) :: utf8Encode cs := by
            simp [utf8Encode, utf8EncodeChar, h1, h2, h3]
          rw [henc] at hf ⊢
          cases fuel with
          | zero => simp at hf
          | succ fuel =>
            have hrec : utf8DecodeAux fuel (utf8Encode cs) = some cs := by
              apply ih
              simp at hf
              omega
            have hb : ¬ (240 + c.toNat / 262144 < 128) := by omega
            have hb2 : ¬ (240 + c.toNat / 262144 < 192) := by omega
            have hb3 : ¬ (240 + c.toNat / 262144 < 224) := by omega
            have hb4 : ¬ (240 + c.toNat / 262144 < 240) := by omega
            have hb5 : 240 + c.toNat / 262144 < 248 := by omega
            have e2 : 128 + c.toNat / 4096 % 64 - 128 = c.toNat / 4096 % 64 := by omega
            have e3 : 128 + c.toNat / 64 % 64 - 128 = c.toNat / 64 % 64 := by omega
            have e4 : 128 + c.toNat % 64 - 128 = c.toNat % 64 := by omega
            have hcb2 : contByte ((128 + c.toNat / 4096 % 64) :: (128 + c.toNat / 64 % 64) ::
                (128 + c.toNat % 64) :: utf8Encode cs) =
                some (c.toNat / 4096 % 64,
                  (128 + c.toNat / 64 % 64) :: (128 + c.toNat % 64) :: utf8Encode cs) := by
              simp only [contByte]
              rw [if_pos (by omega :
                128 ≤ 128 + c.toNat / 4096 % 64 ∧ 128 + c.toNat / 4096 % 64 < 192), e2]
            have hcb3 : contByte ((128 + c.toNat / 64 % 64) ::
                (128 + c.toNat % 64) :: utf8Encode cs) =
                some (c.toNat / 64 % 64, (128 + c.toNat % 64) :: utf8Encode cs) := by
              simp only [contByte]
              rw [if_pos (by omega :
                128 ≤ 128 + c.toNat / 64 % 64 ∧ 128 + c.toNat / 64 % 64 < 192), e3]
            have hcb4 : contByte ((128 + c.toNat % 64) :: utf8Encode cs) =
                some (c.toNat % 64, utf8Encode cs) := by
              simp only [contByte]
              rw [if_pos (by omega : 128 ≤ 128 + c.toNat % 64 ∧ 128 + c.toNat % 64 < 192), e4]
            have hrecon : (240 + c.toNat / 262144 - 240) * 262144 +
                c.toNat / 4096 % 64 * 4096 + c.toNat / 64 % 64 * 64 + c.toNat % 64 = c.toNat := by
              omega
            simp only [utf8DecodeAux, if_neg hb, if_neg hb2, if_neg hb3, if_neg hb4, if_pos hb5,
              hcb2, hcb3, hcb4, hrecon, utf8Finish, charOfNat?_toNat c, hrec]

theorem utf8_roundtrip (cs : List Char) : utf8Decode (utf8Encode cs) = some cs :=
  utf8DecodeAux_encode cs (utf8Encode cs).length (Nat.le_refl _)

-- ===========================================================================
-- JSON values, JSON.stringify and JSON.parse (the fragment this code uses)
-- ===========================================================================

mutual
/-- JSON values. Numbers are modelled as integers: every number this
codebase reads or writes (validAfter, validBefore, timestamp) is an
integer-valued JS number, and the decimal-fraction/exponent forms are not
needed for any property proved here. -/
inductive Json where
  | null
  | bool (b : Bool)
  | num (n : Int)
  | str (s : List Char)
  | arr (xs : JsonArr)
  | obj (ms : JsonObj)
deriving DecidableEq
/-- A JSON array, as its own inductive so that mutual structural recursion
over the family reduces in the kernel. -/
inductive JsonArr where
  | nil
  | cons (hd : Json) (tl : JsonArr)
deriving DecidableEq
/-- A JSON object: an ordered list of key/value members (JS object
property order). -/
inductive JsonObj where
  | nil
  | cons (key : List Char) (val : Json) (tl : JsonObj)
deriving DecidableEq
end

/-- JSON.stringify escaping of one string character. -/
def escapeChar (c : Char) : List Char :=
  if c = '"' then ['\\', '"']
  else if c = '\\' then ['\\', '\\']
  else if c = '\x08' then ['\\', 'b']
  else if c = '\x0c' then ['\\', 'f']
  else if c = '\n' then ['\\', 'n']
  else if c = '\r' then ['\\', 'r']
  else if c = '\t' then ['\\', 't']
  else if c.toNat < 32 then
    ['\\', 'u', '0', '0', hexDigitChar (c.toNat / 16), hexDigitChar (c.toNat % 16)]
  else [c]

/-- Serialized body of a JSON string literal (without the quotes). -/
def serStrBody : List Char → List Char
  | [] => []
  | c :: cs => escapeChar c ++ serStrBody cs

/-- Serialized JSON string literal. -/
def serStr (s : List Char) : List Char := '"' :: serStrBody s ++ ['"']

mutual
/-- JSON.stringify for the modelled fragment (no added whitespace, as JS
produces without an indent argument). -/
def serJson : Json → List Char
  | .null => ['n', 'u', 'l', 'l']
  | .bool false => ['f', 'a', 'l', 's', 'e']
  | .bool true => ['t', 'r', 'u', 'e']
  | .num n => intChars n
  | .str s => serStr s
  | .arr .nil => ['[', ']']
  | .arr (.cons x xs) => '[' :: serJson x ++ serArrTail xs ++ [']']
  | .obj .nil => ['\x7b', '\x7d']
  | .obj (.cons k v ms) => '\x7b' :: serStr k ++ ':' :: serJson v ++ serObjTail ms ++ ['\x7d']
/-- Serialization of the second and later array elements. -/
def serArrTail : JsonArr → List Char
  | .nil => []
  | .cons y ys => ',' :: serJson y ++ serArrTail ys
/-- Serialization of the second and later object members. -/
def serObjTail : JsonObj → List Char
  | .nil => []
  | .cons k v ms => ',' :: serStr k ++ ':' :: serJson v ++ serObjTail ms
end

/-- JSON whitespace. -/
def isJsonWs (c : Char) : Bool := c = ' ' ∨ c = '\t' ∨ c = '\n' ∨ c = '\r'

/-- Skip leading JSON whitespace. -/
def skipWs : List Char → List Char
  | [] => []
  | c :: r => if isJsonWs c then skipWs r else c :: r

/-- True when the list starts with the given character. -/
def headIs (ch : Char) (s : List Char) : Bool :=
  match s with
  | c :: _ => c = ch
  | [] => false

/-- Strip an expected literal character sequence. -/
def stripLit : List Char → List Char → Option (List Char)
  | [], s => some s
  | l :: ls, c :: s => if c = l then stripLit ls s else none
  | _ :: _, [] => none

/-- Four hex digits (a \u escape payload). -/
def hex4 : List Char → Option (Nat × List Char)
  | h1 :: h2 :: h3 :: h4 :: r =>
    match hexVal h1, hexVal h2, hexVal h3, hexVal h4 with
    | some v1, some v2, some v3, some v4 => some (v1 * 4096 + v2 * 256 + v3 * 16 + v4, r)
    | _, _, _, _ => none
  | _ => none

/-- One string escape after the backslash. -/
def parseEscape : List Char → Option (Char × List Char)
  | [] => none
  | e :: r =>
    if e = '"' then some ('"', r)
    else if e = '\\' then some ('\\', r)
    else if e = '/' then some ('/', r)
    else if e = 'b' then some ('\x08', r)
    else if e = 'f' then some ('\x0c', r)
    else if e = 'n' then some ('\n', r)
    else if e = 'r' then some ('\r', r)
    else if e = 't' then some ('\t', r)
    else if e = 'u' then
      match hex4 r with
      | some (v, r2) =>
        match charOfNat? v with
        | some c => some (c, r2)
        | none => none
      | none => none
    else none

/-- String-literal body parser (after the opening quote), fuel-structural. -/
def parseStrBody : Nat → List Char → Option (List Char × List Char)
  | 0, _ => none
  | fuel + 1, s =>
    match s with
    | [] => none
    | c :: r =>
      if c = '"' then some ([], r)
      else if c = '\\' then
        match parseEscape r with
        | some (e, r2) => (parseStrBody fuel r2).map (fun p => (e :: p.1, p.2))
        | none => none
      else (parseStrBody fuel r).map (fun p => (c :: p.1, p.2))

/-- Unsigned integer literal. -/
def parseNatPart : List Char → Option (Nat × List Char)
  | c :: r => if c.isDigit then some (parseDigitsAux (c.toNat - 48) r) else none
  | [] => none

/-- Parser modes: a single value, the elements of a non-empty array
(terminated by a closing bracket), or the members of a non-empty object. -/
inductive PMode where
  | val
  | arrTail
  | objTail

/-- Result of one parser step. -/
inductive PRes where
  | v (j : Json)
  | a (xs : JsonArr)
  | o (ms : JsonObj)

/-- Recursive-descent JSON parser, fuel-structural so that it reduces in
the kernel. Restrictions against full JSON.parse: numbers are integer
literals only (fractions and exponents are not consumed), which is
adequate for every input evaluated in this development. -/
def parseCore : Nat → PMode → List Char → Option (PRes × List Char)
  | 0, _, _ => none
  | fuel + 1, PMode.val, s =>
    match skipWs s with
    | [] => none
    | c :: r =>
      if c = 'n' then (stripLit ['u', 'l', 'l'] r).map (fun r2 => (PRes.v Json.null, r2))
      else if c = 't' then (stripLit ['r', 'u', 'e'] r).map (fun r2 => (PRes.v (Json.bool true), r2))
      else if c = 'f' then
        (stripLit ['a', 'l', 's', 'e'] r).map (fun r2 => (PRes.v (Json.bool false), r2))
      else if c = '"' then
        (parseStrBody (r.length + 1) r).map (fun p => (PRes.v (Json.str p.1), p.2))
      else if c = '[' then
        let r1 := skipWs r
        if headIs ']' r1 then some (PRes.v (Json.arr JsonArr.nil), r1.tail)
        else
          match parseCore fuel PMode.arrTail r1 with
          | some (PRes.a xs, r3) => some (PRes.v (Json.arr xs), r3)
          | _ => none
      else if c = '\x7b' then
        let r1 := skipWs r
        if headIs '\x7d' r1 then some (PRes.v (Json.obj JsonObj.nil), r1.tail)
        else
          match parseCore fuel PMode.objTail r1 with
          | some (PRes.o ms, r3) => some (PRes.v (Json.obj ms), r3)
          | _ => none
      else if c = '-' then
        (parseNatPart r).map (fun p => (PRes.v (Json.num (-(p.1 : Int))), p.2))
      else if c.isDigit then
        (parseNatPart (c :: r)).map (fun p => (PRes.v (Json.num (p.1 : Int)), p.2))
      else none
  | fuel + 1, PMode.arrTail, s =>
    match parseCore fuel PMode.val s with
    | some (PRes.v j, r1) =>
      let r2 := skipWs r1
      if headIs ',' r2 then
        (match parseCore fuel PMode.arrTail r2.tail with
        | some (PRes.a xs, r3) => some (PRes.a (JsonArr.cons j xs), r3)
        | _ => none)
      else if headIs ']' r2 then some (PRes.a (JsonArr.cons j JsonArr.nil), r2.tail)
      else none
    | _ => none
  | fuel + 1, PMode.objTail, s =>
    let s1 := skipWs s
    if headIs '"' s1 then
      match parseStrBody s1.tail.length s1.tail with
      | some (k, r1) =>
        let r2 := skipWs r1
        if headIs ':' r2 then
          (match parseCore fuel PMode.val r2.tail with
          | some (PRes.v v, r3) =>
            let r4 := skipWs r3
            if headIs ',' r4 then
              (match parseCore fuel PMode.objTail r4.tail with
              | some (PRes.o ms, r5) => some (PRes.o (JsonObj.cons k v ms), r5)
              | _ => none)
            else if headIs '\x7d' r4 then some (PRes.o (JsonObj.cons k v JsonObj.nil), r4.tail)
            else none
          | _ => none)
        else none
      | _ => none
    else none

/-- JSON.parse for the modelled fragment: one value, then only trailing
whitespace. -/
def jsonParse (s : List Char) : Option Json :=
  match parseCore (s.length + 1) PMode.val s with
  | some (PRes.v j, rest) => if (skipWs rest).isEmpty then some j else none
  | _ => none

-- Support lemmas for the JSON round trip ------------------------------------

theorem isDigit_toNat_bounds (c : Char) (h : c.isDigit = true) :
    48 ≤ c.toNat ∧ c.toNat ≤ 57 := by
  simp [Char.isDigit] at h
  exact h

theorem char_ne_of_toNat_ne (c d : Char) (h : c.toNat ≠ d.toNat) : c ≠ d :=
  fun he => h (he ▸ rfl)

theorem digit_not_ws (c : Char) (h : c.isDigit = true) : isJsonWs c = false := by
  have hb := isDigit_toNat_bounds c h
  simp only [isJsonWs]
  have h1 : c ≠ ' ' :=
    char_ne_of_toNat_ne c ' ' (by rw [show (' ' : Char).toNat = 32 from rfl]; omega)
  have h2 : c ≠ '\t' :=
    char_ne_of_toNat_ne c '\t' (by rw [show ('\t' : Char).toNat = 9 from rfl]; omega)
  have h3 : c ≠ '\n' :=
    char_ne_of_toNat_ne c '\n' (by rw [show ('\n' : Char).toNat = 10 from rfl]; omega)
  have h4 : c ≠ '\r' :=
    char_ne_of_toNat_ne c '\r' (by rw [show ('\r' : Char).toNat = 13 from rfl]; omega)
  simp [h1, h2, h3, h4]

theorem skipWs_not_ws (c : Char) (r : List Char) (h : isJsonWs c = false) :
    skipWs (c :: r) = c :: r := by
  simp [skipWs, h]

theorem headIs_cons (ch c : Char) (r : List Char) : headIs ch (c :: r) = decide (c = ch) := rfl

theorem hexVal_hexDigitChar : ∀ k, k < 16 → hexVal (hexDigitChar k) = some k := by decide

theorem escapeChar_length_pos (c : Char) : 1 ≤ (escapeChar c).length := by
  simp only [escapeChar]
  split_ifs <;> simp

theorem serStrBody_length_ge (s : List Char) : s.length ≤ (serStrBody s).length := by
  induction s with
  | nil => simp [serStrBody]
  | cons c cs ih =>
    simp only [serStrBody, List.length_append, List.length_cons]
    have := escapeChar_length_pos c
    omega

theorem parseStrBody_ser : ∀ s fuel rest, s.length < fuel →
    parseStrBody fuel (serStrBody s ++ '"' :: rest) = some (s, rest) := by
  intro s
  induction s with
  | nil =>
    intro fuel rest hf
    cases fuel with
    | zero => omega
    | succ fuel => simp [serStrBody, parseStrBody]
  | cons c cs ih =>
    intro fuel rest hf
    cases fuel with
    | zero => simp at hf
    | succ fuel =>
      have hrec : parseStrBody fuel (serStrBody cs ++ '"' :: rest) = some (cs, rest) := by
        apply ih
        simp at hf
        omega
      by_cases h1 : c = '"'
      · subst h1
        simp [serStrBody, escapeChar, parseStrBody, parseEscape, hrec]
      · by_cases h2 : c = '\\'
        · subst h2
          simp [serStrBody, escapeChar, parseStrBody, parseEscape, hrec]
        · by_cases h3 : c = '\x08'
          · subst h3
            simp [serStrBody, escapeChar, parseStrBody, parseEscape, hrec]
          · by_cases h4 : c = '\x0c'
            · subst h4
              simp [serStrBody, escapeChar, parseStrBody, parseEscape, hrec]
            · by_cases h5 : c = '\n'
              · subst h5
                simp [serStrBody, escapeChar, parseStrBody, parseEscape, hrec]
              · by_cases h6 : c = '\r'
                · subst h6
                  simp [serStrBody, escapeChar, parseStrBody, parseEscape, hrec]
                · by_cases h7 : c = '\t'
                  · subst h7
                    simp [serStrBody, escapeChar, parseStrBody, parseEscape, hrec]
                  · by_cases h8 : c.toNat < 32
                    · have henc : escapeChar c = ['\\', 'u', '0', '0',
                          hexDigitChar (c.toNat / 16), hexDigitChar (c.toNat % 16)] := by
                        simp [escapeChar, h1, h2, h3, h4, h5, h6, h7, h8]
                      have hv1 : hexVal (hexDigitChar (c.toNat / 16)) = some (c.toNat / 16) :=
                        hexVal_hexDigitChar _ (by omega)
                      have hv2 : hexVal (hexDigitChar (c.toNat % 16)) = some (c.toNat % 16) :=
                        hexVal_hexDigitChar _ (by omega)
                      have hval : (0 : Nat) * 4096 + 0 * 256 + c.toNat / 16 * 16 + c.toNat % 16 =
                          c.toNat := by omega
                      have hcc : charOfNat? c.toNat = some c := charOfNat?_toNat c
                      have hv0 : hexVal '0' = some 0 := by decide
                      simp only [serStrBody, henc, List.cons_append, List.nil_append,
                        parseStrBody, parseEscape, reduceIte]
                      simp only [hex4, hv0, hv1, hv2]
                      rw [hval, hcc]
                      simp [hrec]
                    · have henc : escapeChar c = [c] := by
                        simp [escapeChar, h1, h2, h3, h4, h5, h6, h7, h8]
                      simp only [serStrBody, henc, List.cons_append, List.nil_append,
                        parseStrBody]
                      rw [if_neg h1, if_neg h2]
                      simp [hrec]

theorem parseNatPart_natChars (m : Nat) (rest : List Char)
    (hrest : rest = [] ∨ ∃ c r, rest = c :: r ∧ c.isDigit = false) :
    parseNatPart (natChars m ++ rest) = some (m, rest) := by
  obtain ⟨d, ds, hds⟩ : ∃ d ds, natChars m = d :: ds := by
    cases hnc : natChars m with
    | nil => exact absurd hnc (natChars_ne_nil m)
    | cons d ds => exact ⟨d, ds, rfl⟩
  have hall : ∀ c ∈ natChars m, c.isDigit := natChars_digits m
  have hd : d.isDigit := hall d (by rw [hds]; simp)
  have hdsall : ∀ c ∈ ds, c.isDigit := by
    intro c hc
    exact hall c (by rw [hds]; simp [hc])
  rw [hds]
  simp only [List.cons_append, parseNatPart, hd, if_pos]
  rw [parseDigitsAux_digits_block ds _ rest hdsall, parseDigitsAux_stop _ rest hrest]
  have hval : (d.toNat - 48) * 10 ^ ds.length + digitsVal ds = m := by
    have h1 : digitsVal (d :: ds) = m := by rw [← hds]; exact natChars_val m
    have h2 : digitsVal (d :: ds) =
        ds.foldl (fun a c => a * 10 + (c.toNat - 48)) (d.toNat - 48) := by
      simp [digitsVal, List.foldl_cons]
    rw [h2, digitsFoldl_shift ds] at h1
    exact h1
  rw [hval]


-- Fuel bounds for the parser ------------------------------------------------

mutual
/-- Fuel needed by parseCore to parse the serialization of a value. -/
def needJ : Json → Nat
  | .null => 1
  | .bool _ => 1
  | .num _ => 1
  | .str _ => 1
  | .arr xs => 1 + needAs xs
  | .obj ms => 1 + needOs ms
/-- Fuel needed (beyond the value entry) for the elements of an array. -/
def needAs : JsonArr → Nat
  | .nil => 0
  | .cons x xs => 1 + needJ x + needAs xs
/-- Fuel needed (beyond the value entry) for the members of an object. -/
def needOs : JsonObj → Nat
  | .nil => 0
  | .cons _ v ms => 1 + needJ v + needOs ms
end

theorem needJ_pos (j : Json) : 1 ≤ needJ j := by
  cases j <;> simp [needJ]

theorem headIs_self (c : Char) (r : List Char) : headIs c (c :: r) = true := by
  simp [headIs]

theorem headIs_ne (ch c : Char) (r : List Char) (h : c ≠ ch) : headIs ch (c :: r) = false := by
  simp [headIs, h]

theorem serJson_head_ok (j : Json) :
    ∃ c r, serJson j = c :: r ∧ isJsonWs c = false ∧ c ≠ ']' := by
  cases j with
  | null => exact ⟨'n', _, rfl, by decide, by decide⟩
  | bool b =>
    cases b with
    | true => exact ⟨'t', _, rfl, by decide, by decide⟩
    | false => exact ⟨'f', _, rfl, by decide, by decide⟩
  | num n =>
    by_cases hn : n < 0
    · refine ⟨'-', natChars n.natAbs, ?_, by decide, by decide⟩
      simp [serJson, intChars, hn]
    · obtain ⟨d, ds, hds⟩ : ∃ d ds, natChars n.natAbs = d :: ds := by
        cases hnc : natChars n.natAbs with
        | nil => exact absurd hnc (natChars_ne_nil _)
        | cons d ds => exact ⟨d, ds, rfl⟩
      have hd : d.isDigit := natChars_digits n.natAbs d (by rw [hds]; simp)
      have hb := isDigit_toNat_bounds d hd
      refine ⟨d, ds, ?_, digit_not_ws d hd, ?_⟩
      · simp [serJson, intChars, hn, hds]
      · exact char_ne_of_toNat_ne d ']' (by rw [show (']' : Char).toNat = 93 from rfl]; omega)
  | str s => exact ⟨'"', serStrBody s ++ ['"'], by simp [serJson, serStr], by decide, by decide⟩
  | arr xs =>
    cases xs with
    | nil => exact ⟨'[', _, rfl, by decide, by decide⟩
    | cons x xs => exact ⟨'[', _, rfl, by decide, by decide⟩
  | obj ms =>
    cases ms with
    | nil => exact ⟨'\x7b', _, rfl, by decide, by decide⟩
    | cons k v ms => exact ⟨'\x7b', _, rfl, by decide, by decide⟩


/-- Parser continuation condition: the remainder must not begin with a
digit (else a serialized number would run into it). -/
def restOk (rest : List Char) : Prop :=
  rest = [] ∨ ∃ c r, rest = c :: r ∧ c.isDigit = false

theorem restOk_cons (c : Char) (r : List Char) (h : c.isDigit = false) : restOk (c :: r) :=
  Or.inr ⟨c, r, rfl, h⟩

mutual

theorem parseCore_ser_val : ∀ (j : Json) (fuel : Nat) (rest : List Char),
    needJ j ≤ fuel → restOk rest →
    parseCore fuel PMode.val (serJson j ++ rest) = some (PRes.v j, rest)
  | Json.null, fuel, rest, hfuel, hrest => by
    cases fuel with
    | zero => exact absurd (Nat.le_trans (needJ_pos _) hfuel) (by omega)
    | succ fuel =>
      have hws : skipWs ('n' :: 'u' :: 'l' :: 'l' :: rest) = 'n' :: 'u' :: 'l' :: 'l' :: rest :=
        skipWs_not_ws _ _ (by decide)
      simp [serJson, List.cons_append, parseCore, hws, stripLit, reduceIte]
  | Json.bool true, fuel, rest, hfuel, hrest => by
    cases fuel with
    | zero => exact absurd (Nat.le_trans (needJ_pos _) hfuel) (by omega)
    | succ fuel =>
      have hws : skipWs ('t' :: 'r' :: 'u' :: 'e' :: rest) = 't' :: 'r' :: 'u' :: 'e' :: rest :=
        skipWs_not_ws _ _ (by decide)
      simp [serJson, List.cons_append, parseCore, hws, stripLit, reduceIte]
  | Json.bool false, fuel, rest, hfuel, hrest => by
    cases fuel with
    | zero => exact absurd (Nat.le_trans (needJ_pos _) hfuel) (by omega)
    | succ fuel =>
      have hws : skipWs ('f' :: 'a' :: 'l' :: 's' :: 'e' :: rest) =
          'f' :: 'a' :: 'l' :: 's' :: 'e' :: rest := skipWs_not_ws _ _ (by decide)
      simp [serJson, List.cons_append, parseCore, hws, stripLit, reduceIte]
  | Json.num n, fuel, rest, hfuel, hrest => by
    cases fuel with
    | zero => exact absurd (Nat.le_trans (needJ_pos _) hfuel) (by omega)
    | succ fuel =>
      by_cases hn : n < 0
      · have hser : serJson (Json.num n) = '-' :: natChars n.natAbs := by
          simp [serJson, intChars, hn]
        have hws : skipWs ('-' :: (natChars n.natAbs ++ rest)) =
            '-' :: (natChars n.natAbs ++ rest) := skipWs_not_ws _ _ (by decide)
        rw [hser]
        simp only [List.cons_append, parseCore, hws, reduceIte]
        rw [parseNatPart_natChars n.natAbs rest hrest]
        simp only [Option.map]
        rw [show (-(n.natAbs : Int)) = n by omega]
        simp only [show (('-' : Char) = 'n') = False by decide,
          show (('-' : Char) = 't') = False by decide,
          show (('-' : Char) = 'f') = False by decide,
          show (('-' : Char) = '"') = False by decide,
          show (('-' : Char) = '[') = False by decide,
          show (('-' : Char) = '\x7b') = False by decide,
          eq_self_iff_true, if_false, if_true]
      · have hser : serJson (Json.num n) = natChars n.natAbs := by
          simp [serJson, intChars, hn]
        obtain ⟨d, ds, hds⟩ : ∃ d ds, natChars n.natAbs = d :: ds := by
          cases hnc : natChars n.natAbs with
          | nil => exact absurd hnc (natChars_ne_nil _)
          | cons d ds => exact ⟨d, ds, rfl⟩
        have hd : d.isDigit := natChars_digits n.natAbs d (by rw [hds]; simp)
        have hb := isDigit_toNat_bounds d hd
        have hws : skipWs (d :: (ds ++ rest)) = d :: (ds ++ rest) :=
          skipWs_not_ws _ _ (digit_not_ws d hd)
        have e1 : (d = 'n') = False := by
          simp [char_ne_of_toNat_ne d 'n' (by rw [show ('n' : Char).toNat = 110 from rfl]; omega)]
        have e2 : (d = 't') = False := by
          simp [char_ne_of_toNat_ne d 't' (by rw [show ('t' : Char).toNat = 116 from rfl]; omega)]
        have e3 : (d = 'f') = False := by
          simp [char_ne_of_toNat_ne d 'f' (by rw [show ('f' : Char).toNat = 102 from rfl]; omega)]
        have e4 : (d = '"') = False := by
          simp [char_ne_of_toNat_ne d '"' (by rw [show ('"' : Char).toNat = 34 from rfl]; omega)]
        have e5 : (d = '[') = False := by
          simp [char_ne_of_toNat_ne d '[' (by rw [show ('[' : Char).toNat = 91 from rfl]; omega)]
        have e6 : (d = '\x7b') = False := by
          simp [char_ne_of_toNat_ne d '\x7b'
            (by rw [show ('\x7b' : Char).toNat = 123 from rfl]; omega)]
        have e7 : (d = '-') = False := by
          simp [char_ne_of_toNat_ne d '-' (by rw [show ('-' : Char).toNat = 45 from rfl]; omega)]
        rw [hser, hds]
        simp only [List.cons_append, parseCore, hws, e1, e2, e3, e4, e5, e6, e7, if_false, hd,
          if_true]
        have hpn : parseNatPart (d :: (ds ++ rest)) = some (n.natAbs, rest) := by
          have := parseNatPart_natChars n.natAbs rest hrest
          rw [hds] at this
          simpa using this
        rw [hpn]
        simp only [Option.map]
        rw [show ((n.natAbs : Int)) = n by omega]
  | Json.str cs, fuel, rest, hfuel, hrest => by
    cases fuel with
    | zero => exact absurd (Nat.le_trans (needJ_pos _) hfuel) (by omega)
    | succ fuel =>
      have hser : serJson (Json.str cs) ++ rest = '"' :: (serStrBody cs ++ '"' :: rest) := by
        simp [serJson, serStr]
      have hws : skipWs ('"' :: (serStrBody cs ++ '"' :: rest)) =
          '"' :: (serStrBody cs ++ '"' :: rest) := skipWs_not_ws _ _ (by decide)
      rw [hser]
      simp only [parseCore, hws, reduceIte]
      rw [parseStrBody_ser cs _ rest (by
        have := serStrBody_length_ge cs
        simp only [List.length_append, List.length_cons]
        omega)]
      simp
  | Json.arr JsonArr.nil, fuel, rest, hfuel, hrest => by
    cases fuel with
    | zero => exact absurd (Nat.le_trans (needJ_pos _) hfuel) (by omega)
    | succ fuel =>
      have hws : skipWs ('[' :: ']' :: rest) = '[' :: ']' :: rest :=
        skipWs_not_ws _ _ (by decide)
      have hws2 : skipWs (']' :: rest) = ']' :: rest := skipWs_not_ws _ _ (by decide)
      simp [serJson, List.cons_append, parseCore, hws, hws2, headIs_self, reduceIte]
  | Json.arr (JsonArr.cons x xs), fuel, rest, hfuel, hrest => by
    cases fuel with
    | zero => exact absurd (Nat.le_trans (needJ_pos _) hfuel) (by omega)
    | succ fuel =>
      obtain ⟨c0, r0, hc0, hcws, hcne⟩ := serJson_head_ok x
      have hser : serJson (Json.arr (JsonArr.cons x xs)) ++ rest =
          '[' :: (serJson x ++ serArrTail xs ++ ']' :: rest) := by
        simp [serJson, List.cons_append, List.append_assoc]
      have hshape : serJson x ++ serArrTail xs ++ ']' :: rest =
          c0 :: (r0 ++ serArrTail xs ++ ']' :: rest) := by
        rw [hc0]
        simp [List.cons_append, List.append_assoc]
      have hws : skipWs ('[' :: (serJson x ++ serArrTail xs ++ ']' :: rest)) =
          '[' :: (serJson x ++ serArrTail xs ++ ']' :: rest) :=
        skipWs_not_ws _ _ (by decide)
      have hws2 : skipWs (serJson x ++ serArrTail xs ++ ']' :: rest) =
          serJson x ++ serArrTail xs ++ ']' :: rest := by
        rw [hshape]
        exact skipWs_not_ws _ _ hcws
      have hhd : headIs ']' (serJson x ++ serArrTail xs ++ ']' :: rest) = false := by
        rw [hshape]
        exact headIs_ne _ _ _ hcne
      have harr := parseCore_ser_arrTail x xs fuel rest (by
        rw [show needJ (Json.arr (JsonArr.cons x xs)) =
          1 + needAs (JsonArr.cons x xs) from rfl] at hfuel
        omega)
      rw [hser]
      simp only [parseCore, hws, hws2, hhd, Bool.false_eq_true, if_false, harr]
      simp
  | Json.obj JsonObj.nil, fuel, rest, hfuel, hrest => by
    cases fuel with
    | zero => exact absurd (Nat.le_trans (needJ_pos _) hfuel) (by omega)
    | succ fuel =>
      have hws : skipWs ('\x7b' :: '\x7d' :: rest) = '\x7b' :: '\x7d' :: rest :=
        skipWs_not_ws _ _ (by decide)
      have hws2 : skipWs ('\x7d' :: rest) = '\x7d' :: rest := skipWs_not_ws _ _ (by decide)
      simp [serJson, List.cons_append, parseCore, hws, hws2, headIs_self, reduceIte]
  | Json.obj (JsonObj.cons k v ms), fuel, rest, hfuel, hrest => by
    cases fuel with
    | zero => exact absurd (Nat.le_trans (needJ_pos _) hfuel) (by omega)
    | succ fuel =>
      have hser : serJson (Json.obj (JsonObj.cons k v ms)) ++ rest =
          '\x7b' :: (serStr k ++ ':' :: serJson v ++ serObjTail ms ++ '\x7d' :: rest) := by
        simp [serJson, List.cons_append, List.append_assoc]
      have hshape : serStr k ++ ':' :: serJson v ++ serObjTail ms ++ '\x7d' :: rest =
          '"' :: (serStrBody k ++ ['"'] ++ (':' :: serJson v ++ serObjTail ms ++
            '\x7d' :: rest)) := by
        simp [serStr, List.cons_append, List.append_assoc]
      have hws : skipWs ('\x7b' :: (serStr k ++ ':' :: serJson v ++ serObjTail ms ++
          '\x7d' :: rest)) = '\x7b' :: (serStr k ++ ':' :: serJson v ++ serObjTail ms ++
          '\x7d' :: rest) := skipWs_not_ws _ _ (by decide)
      have hws2 : skipWs (serStr k ++ ':' :: serJson v ++ serObjTail ms ++ '\x7d' :: rest) =
          serStr k ++ ':' :: serJson v ++ serObjTail ms ++ '\x7d' :: rest := by
        rw [hshape]
        exact skipWs_not_ws _ _ (by decide)
      have hhd : headIs '\x7d' (serStr k ++ ':' :: serJson v ++ serObjTail ms ++
          '\x7d' :: rest) = false := by
        rw [hshape]
        exact headIs_ne _ _ _ (by decide)
      have hobj := parseCore_ser_objTail k v ms fuel rest (by
        rw [show needJ (Json.obj (JsonObj.cons k v ms)) =
          1 + needOs (JsonObj.cons k v ms) from rfl] at hfuel
        omega)
      rw [hser]
      simp only [parseCore, hws, hws2, hhd, Bool.false_eq_true, if_false, hobj]
      simp
termination_by j fuel rest hfuel hrest => sizeOf j

theorem parseCore_ser_arrTail : ∀ (x : Json) (xs : JsonArr) (fuel : Nat) (rest : List Char),
    needAs (JsonArr.cons x xs) ≤ fuel →
    parseCore fuel PMode.arrTail (serJson x ++ serArrTail xs ++ ']' :: rest) =
      some (PRes.a (JsonArr.cons x xs), rest)
  | x, JsonArr.nil, fuel, rest, hfuel => by
    cases fuel with
    | zero =>
      rw [show needAs (JsonArr.cons x JsonArr.nil) =
        1 + needJ x + needAs JsonArr.nil from rfl] at hfuel
      omega
    | succ fuel =>
      have hfx : 1 + needJ x + needAs JsonArr.nil ≤ fuel + 1 := by
        rw [show needAs (JsonArr.cons x JsonArr.nil) =
          1 + needJ x + needAs JsonArr.nil from rfl] at hfuel
        exact hfuel
      have hval := parseCore_ser_val x fuel (']' :: rest) (by omega)
        (restOk_cons _ _ (by decide))
      have hassoc : serJson x ++ serArrTail JsonArr.nil ++ ']' :: rest =
          serJson x ++ ']' :: rest := by
        simp [serArrTail]
      have hws : skipWs (']' :: rest) = ']' :: rest := skipWs_not_ws _ _ (by decide)
      rw [hassoc]
      simp only [parseCore, hval, hws, headIs_self, headIs_ne ',' ']' rest (by decide),
        Bool.false_eq_true, if_false]
      simp
  | x, JsonArr.cons y ys, fuel, rest, hfuel => by
    cases fuel with
    | zero =>
      rw [show needAs (JsonArr.cons x (JsonArr.cons y ys)) =
        1 + needJ x + needAs (JsonArr.cons y ys) from rfl] at hfuel
      omega
    | succ fuel =>
      have hfx : 1 + needJ x + needAs (JsonArr.cons y ys) ≤ fuel + 1 := by
        rw [show needAs (JsonArr.cons x (JsonArr.cons y ys)) =
          1 + needJ x + needAs (JsonArr.cons y ys) from rfl] at hfuel
        exact hfuel
      have hval := parseCore_ser_val x fuel (',' :: (serJson y ++ serArrTail ys ++ ']' :: rest))
        (by omega) (restOk_cons _ _ (by decide))
      have hassoc : serJson x ++ serArrTail (JsonArr.cons y ys) ++ ']' :: rest =
          serJson x ++ ',' :: (serJson y ++ serArrTail ys ++ ']' :: rest) := by
        simp [serArrTail, List.cons_append, List.append_assoc]
      have hws : skipWs (',' :: (serJson y ++ serArrTail ys ++ ']' :: rest)) =
          ',' :: (serJson y ++ serArrTail ys ++ ']' :: rest) := skipWs_not_ws _ _ (by decide)
      have hrec := parseCore_ser_arrTail y ys fuel rest (by
        rw [show needAs (JsonArr.cons y ys) = 1 + needJ y + needAs ys from rfl] at hfx ⊢
        omega)
      rw [hassoc]
      simp only [parseCore, hval, hws, headIs_self, List.tail_cons, hrec]
      simp
termination_by x xs fuel rest hfuel => sizeOf x + sizeOf xs

theorem parseCore_ser_objTail : ∀ (k : List Char) (v : Json) (ms : JsonObj) (fuel : Nat)
    (rest : List Char), needOs (JsonObj.cons k v ms) ≤ fuel →
    parseCore fuel PMode.objTail
        (serStr k ++ ':' :: serJson v ++ serObjTail ms ++ '\x7d' :: rest) =
      some (PRes.o (JsonObj.cons k v ms), rest)
  | k, v, JsonObj.nil, fuel, rest, hfuel => by
    cases fuel with
    | zero =>
      rw [show needOs (JsonObj.cons k v JsonObj.nil) =
        1 + needJ v + needOs JsonObj.nil from rfl] at hfuel
      omega
    | succ fuel =>
      have hfv : 1 + needJ v + needOs JsonObj.nil ≤ fuel + 1 := by
        rw [show needOs (JsonObj.cons k v JsonObj.nil) =
          1 + needJ v + needOs JsonObj.nil from rfl] at hfuel
        exact hfuel
      have hshape : serStr k ++ ':' :: serJson v ++ serObjTail JsonObj.nil ++ '\x7d' :: rest =
          '"' :: (serStrBody k ++ '"' :: (':' :: (serJson v ++ serObjTail JsonObj.nil ++
            '\x7d' :: rest))) := by
        simp [serStr, List.cons_append, List.append_assoc]
      have hws1 : skipWs ('"' :: (serStrBody k ++ '"' :: (':' :: (serJson v ++
          serObjTail JsonObj.nil ++ '\x7d' :: rest)))) =
          '"' :: (serStrBody k ++ '"' :: (':' :: (serJson v ++
          serObjTail JsonObj.nil ++ '\x7d' :: rest))) := skipWs_not_ws _ _ (by decide)
      have hkey := parseStrBody_ser k
        (serStrBody k ++ '"' :: (':' :: (serJson v ++ serObjTail JsonObj.nil ++
          '\x7d' :: rest))).length
        (':' :: (serJson v ++ serObjTail JsonObj.nil ++ '\x7d' :: rest)) (by
          have := serStrBody_length_ge k
          simp only [List.length_append, List.length_cons]
          omega)
      have hws2 : skipWs (':' :: (serJson v ++ serObjTail JsonObj.nil ++ '\x7d' :: rest)) =
          ':' :: (serJson v ++ serObjTail JsonObj.nil ++ '\x7d' :: rest) :=
        skipWs_not_ws _ _ (by decide)
      rw [hshape]
      simp only [parseCore, hws1, headIs_self, List.tail_cons, hkey, hws2]
      have hval := parseCore_ser_val v fuel ('\x7d' :: rest) (by omega)
        (restOk_cons _ _ (by decide))
      have hval2 : parseCore fuel PMode.val
          (serJson v ++ serObjTail JsonObj.nil ++ '\x7d' :: rest) =
          some (PRes.v v, '\x7d' :: rest) := by
        rw [show serObjTail JsonObj.nil = [] from rfl, List.append_nil]
        exact hval
      have hws3 : skipWs ('\x7d' :: rest) = '\x7d' :: rest := skipWs_not_ws _ _ (by decide)
      simp only [hval2, hws3, headIs_self, headIs_ne ',' '\x7d' rest (by decide),
        Bool.false_eq_true, if_false, List.tail_cons]
      simp
  | k, v, JsonObj.cons k2 w ms2, fuel, rest, hfuel => by
    cases fuel with
    | zero =>
      rw [show needOs (JsonObj.cons k v (JsonObj.cons k2 w ms2)) =
        1 + needJ v + needOs (JsonObj.cons k2 w ms2) from rfl] at hfuel
      omega
    | succ fuel =>
      have hfv : 1 + needJ v + needOs (JsonObj.cons k2 w ms2) ≤ fuel + 1 := by
        rw [show needOs (JsonObj.cons k v (JsonObj.cons k2 w ms2)) =
          1 + needJ v + needOs (JsonObj.cons k2 w ms2) from rfl] at hfuel
        exact hfuel
      have hshape : serStr k ++ ':' :: serJson v ++ serObjTail (JsonObj.cons k2 w ms2) ++
          '\x7d' :: rest =
          '"' :: (serStrBody k ++ '"' :: (':' :: (serJson v ++
            serObjTail (JsonObj.cons k2 w ms2) ++ '\x7d' :: rest))) := by
        simp [serStr, List.cons_append, List.append_assoc]
      have hws1 : skipWs ('"' :: (serStrBody k ++ '"' :: (':' :: (serJson v ++
          serObjTail (JsonObj.cons k2 w ms2) ++ '\x7d' :: rest)))) =
          '"' :: (serStrBody k ++ '"' :: (':' :: (serJson v ++
          serObjTail (JsonObj.cons k2 w ms2) ++ '\x7d' :: rest))) :=
        skipWs_not_ws _ _ (by decide)
      have hkey := parseStrBody_ser k
        (serStrBody k ++ '"' :: (':' :: (serJson v ++ serObjTail (JsonObj.cons k2 w ms2) ++
          '\x7d' :: rest))).length
        (':' :: (serJson v ++ serObjTail (JsonObj.cons k2 w ms2) ++ '\x7d' :: rest)) (by
          have := serStrBody_length_ge k
          simp only [List.length_append, List.length_cons]
          omega)
      have hws2 : skipWs (':' :: (serJson v ++ serObjTail (JsonObj.cons k2 w ms2) ++
          '\x7d' :: rest)) =
          ':' :: (serJson v ++ serObjTail (JsonObj.cons k2 w ms2) ++ '\x7d' :: rest) :=
        skipWs_not_ws _ _ (by decide)
      rw [hshape]
      simp only [parseCore, hws1, headIs_self, List.tail_cons, hkey, hws2]
      have hval := parseCore_ser_val v fuel (',' :: (serStr k2 ++ ':' :: serJson w ++
        serObjTail ms2 ++ '\x7d' :: rest)) (by omega) (restOk_cons _ _ (by decide))
      have hval2 : parseCore fuel PMode.val
          (serJson v ++ serObjTail (JsonObj.cons k2 w ms2) ++ '\x7d' :: rest) =
          some (PRes.v v, ',' :: (serStr k2 ++ ':' :: serJson w ++ serObjTail ms2 ++
            '\x7d' :: rest)) := by
        rw [show serObjTail (JsonObj.cons k2 w ms2) = ',' :: serStr k2 ++ ':' :: serJson w ++
          serObjTail ms2 from rfl]
        rw [← hval]
        congr 1
        simp [List.cons_append, List.append_assoc]
      have hws3 : skipWs (',' :: (serStr k2 ++ ':' :: serJson w ++ serObjTail ms2 ++
          '\x7d' :: rest)) = ',' :: (serStr k2 ++ ':' :: serJson w ++ serObjTail ms2 ++
          '\x7d' :: rest) := skipWs_not_ws _ _ (by decide)
      have hrec := parseCore_ser_objTail k2 w ms2 fuel rest (by
        rw [show needOs (JsonObj.cons k2 w ms2) = 1 + needJ w + needOs ms2 from rfl] at hfv ⊢
        omega)
      simp only [hval2, hws3, headIs_self, List.tail_cons, hrec]
      simp
termination_by k v ms fuel rest hfuel => sizeOf v + sizeOf ms

end


mutual

theorem needJ_le_serLen : ∀ (j : Json), needJ j ≤ (serJson j).length
  | Json.null => by simp [needJ, serJson]
  | Json.bool true => by simp [needJ, serJson]
  | Json.bool false => by simp [needJ, serJson]
  | Json.num n => by
    rw [show needJ (Json.num n) = 1 from rfl]
    rw [show serJson (Json.num n) = intChars n from rfl]
    simp only [intChars]
    split_ifs
    · simp
    · cases hnc : natChars n.natAbs with
      | nil => exact absurd hnc (natChars_ne_nil _)
      | cons d ds => simp
  | Json.str cs => by simp [needJ, serJson, serStr]
  | Json.arr JsonArr.nil => by simp [needJ, needAs, serJson]
  | Json.arr (JsonArr.cons x xs) => by
    have h1 := needJ_le_serLen x
    have h2 := needAs_le_serLen xs
    rw [show needJ (Json.arr (JsonArr.cons x xs)) =
      1 + (1 + needJ x + needAs xs) from rfl]
    rw [show serJson (Json.arr (JsonArr.cons x xs)) =
      '[' :: serJson x ++ serArrTail xs ++ [']'] from rfl]
    simp only [List.length_append, List.length_cons]
    omega
  | Json.obj JsonObj.nil => by simp [needJ, needOs, serJson]
  | Json.obj (JsonObj.cons k v ms) => by
    have h1 := needJ_le_serLen v
    have h2 := needOs_le_serLen ms
    rw [show needJ (Json.obj (JsonObj.cons k v ms)) =
      1 + (1 + needJ v + needOs ms) from rfl]
    rw [show serJson (Json.obj (JsonObj.cons k v ms)) =
      '\x7b' :: serStr k ++ ':' :: serJson v ++ serObjTail ms ++ ['\x7d'] from rfl]
    simp only [List.length_append, List.length_cons, serStr]
    omega
termination_by j => sizeOf j

theorem needAs_le_serLen : ∀ (xs : JsonArr), needAs xs ≤ (serArrTail xs).length
  | JsonArr.nil => by simp [needAs, serArrTail]
  | JsonArr.cons y ys => by
    have h1 := needJ_le_serLen y
    have h2 := needAs_le_serLen ys
    rw [show needAs (JsonArr.cons y ys) = 1 + needJ y + needAs ys from rfl]
    rw [show serArrTail (JsonArr.cons y ys) = ',' :: serJson y ++ serArrTail ys from rfl]
    simp only [List.length_append, List.length_cons]
    omega
termination_by xs => sizeOf xs

theorem needOs_le_serLen : ∀ (ms : JsonObj), needOs ms ≤ (serObjTail ms).length
  | JsonObj.nil => by simp [needOs, serObjTail]
  | JsonObj.cons k v ms => by
    have h1 := needJ_le_serLen v
    have h2 := needOs_le_serLen ms
    rw [show needOs (JsonObj.cons k v ms) = 1 + needJ v + needOs ms from rfl]
    rw [show serObjTail (JsonObj.cons k v ms) =
      ',' :: serStr k ++ ':' :: serJson v ++ serObjTail ms from rfl]
    simp only [List.length_append, List.length_cons, serStr]
    omega
termination_by ms => sizeOf ms

end

/-- JSON.parse recovers exactly what JSON.stringify produced. -/
theorem jsonParse_serJson (j : Json) : jsonParse (serJson j) = some j := by
  have h := parseCore_ser_val j ((serJson j).length + 1) [] (by
    have := needJ_le_serLen j
    omega) (Or.inl rfl)
  rw [List.append_nil] at h
  simp [jsonParse, h, skipWs]

-- ===========================================================================
-- The wire encoding: JSON text → UTF-8 bytes → base64 (Buffer round trip)
-- ===========================================================================

/-- The wire transform applied by every encode function: UTF-8 bytes of the
JSON text, base64-encoded. -/
def encodeWireChars (txt : List Char) : List Char := b64encode (utf8Encode txt)

/-- The inverse wire transform applied by every decode function. -/
def decodeWireChars (w : List Char) : Option (List Char) :=
  (b64decode w).bind utf8Decode

theorem wire_roundtrip (txt : List Char) : decodeWireChars (encodeWireChars txt) = some txt := by
  simp only [encodeWireChars, decodeWireChars,
    b64_roundtrip (utf8Encode txt) (utf8Encode_bytes_lt txt), Option.bind]
  exact utf8_roundtrip txt


-- ===========================================================================
-- Protocol records (src/types/index.ts) and their JSON images
-- ===========================================================================

/-- PaymentRequirements (x402 requirement record). Fields the TS type marks
optional are Options; scheme is a plain string at runtime (TS types erase). -/
structure PaymentRequirements where
  scheme : String
  network : String
  asset : String
  maxAmountRequired : String
  payTo : String
  description : Option String
  resource : Option String
  mimeType : Option String
  outputSchema : Option JsonObj
deriving DecidableEq

/-- EIP-3009 TransferAuthorization. validAfter and validBefore are the
integer-valued JS numbers the validator checks. -/
structure TransferAuthorization where
  from_ : String
  to_ : String
  value : String
  validAfter : Int
  validBefore : Int
  nonce : String
deriving DecidableEq

/-- The scheme-specific inner payload object of a PaymentPayload. -/
structure PaymentPayloadBody where
  signature : String
  authorization : TransferAuthorization
deriving DecidableEq

/-- PaymentPayload (client payment record). -/
structure PaymentPayload where
  x402Version : String
  scheme : String
  network : String
  payload : PaymentPayloadBody
deriving DecidableEq

/-- SettlementResponse from the facilitator. -/
structure SettlementResponse where
  success : Bool
  transaction : Option String
  network : String
  payer : String
  timestamp : Option Int
  errorReason : Option String
deriving DecidableEq

/-- PaymentReceipt passed to callbacks and attached to the request. -/
structure PaymentReceipt where
  payer : String
  amount : String
  transactionHash : String
  network : String
  timestamp : Int
  resource : String
deriving DecidableEq

/-- X402Error shape (code and message; the cause field carries no logic). -/
structure X402Error where
  code : String
  message : String
deriving DecidableEq

-- JSON field access (the JS property reads performed by the validators) ----

/-- Property lookup on a JSON object (first occurrence; serialized records
have unique keys). Non-object values have no string properties. -/
def jObjGet : JsonObj → List Char → Option Json
  | JsonObj.nil, _ => none
  | JsonObj.cons k v ms, key => if k = key then some v else jObjGet ms key

/-- JS property read modelled on JSON values. -/
def jGet (j : Json) (key : List Char) : Option Json :=
  match j with
  | Json.obj ms => jObjGet ms key
  | _ => none

/-- The JS check typeof x === 'object' && x !== null on a JSON value. -/
def isJsObjectLike (j : Json) : Bool :=
  match j with
  | Json.obj _ => true
  | Json.arr _ => true
  | _ => false

/-- Read a string-valued field. -/
def getStr (j : Json) (k : List Char) : Option (List Char) :=
  match jGet j k with
  | some (Json.str s) => some s
  | _ => none

/-- Read a number-valued field. -/
def getNum (j : Json) (k : List Char) : Option Int :=
  match jGet j k with
  | some (Json.num n) => some n
  | _ => none

/-- String field with the empty default (used by the modelled TS casts). -/
def getStrD (j : Json) (k : List Char) : String :=
  String.mk ((getStr j k).getD [])

-- Validation helpers (PaymentCodec.ts) --------------------------------------

/-- Hex digit test (either case). -/
def isHexDigitChar (c : Char) : Bool := (hexVal c).isSome

/-- The address regex of the codec: 0x followed by exactly 40 hex digits. -/
def isValidAddress (addr : String) : Bool :=
  match addr.data with
  | '0' :: 'x' :: r => r.length = 40 && r.all isHexDigitChar
  | _ => false

/-- The amount regex of the codec: one or more decimal digits (the
additional BigInt non-negativity check of the source is always true for a
digit string). -/
def isValidAmount (amount : String) : Bool :=
  !amount.data.isEmpty && amount.data.all Char.isDigit

/-- The signature regex of the codec: 0x plus 130 hex digits. -/
def isValidSignature (sig : String) : Bool :=
  match sig.data with
  | '0' :: 'x' :: r => r.length = 130 && r.all isHexDigitChar
  | _ => false

/-- The nonce regex of the codec: 0x plus 64 hex digits. -/
def isValidNonce (nonce : String) : Bool :=
  match nonce.data with
  | '0' :: 'x' :: r => r.length = 64 && r.all isHexDigitChar
  | _ => false

/-- A string field is rejected when absent, non-string, or failing p. -/
def strFieldFails (j : Json) (k : List Char) (p : List Char → Bool) : Bool :=
  match getStr j k with
  | some s => !(p s)
  | none => true

/-- validatePaymentRequirements of PaymentCodec.ts on the parsed JSON value
(fail-fast, first offending field wins, with the source messages). -/
def validatePaymentRequirements (j : Json) : Except String Unit :=
  if isJsObjectLike j = false then Except.error "Payment requirement must be an object"
  else if jGet j "scheme".data ≠ some (Json.str "exact".data) then
    Except.error "Only \"exact\" scheme is supported"
  else if strFieldFails j "network".data (fun s => !s.isEmpty) then
    Except.error "Invalid or missing network"
  else if strFieldFails j "asset".data (fun s => isValidAddress (String.mk s)) then
    Except.error "Invalid or missing asset address"
  else if strFieldFails j "maxAmountRequired".data (fun s => isValidAmount (String.mk s)) then
    Except.error "Invalid or missing maxAmountRequired"
  else if strFieldFails j "payTo".data (fun s => isValidAddress (String.mk s)) then
    Except.error "Invalid or missing payTo address"
  else Except.ok ()

/-- validateAuthorization of PaymentCodec.ts. -/
def validateAuthorization (j : Json) : Except String Unit :=
  if isJsObjectLike j = false then Except.error "Authorization must be an object"
  else if strFieldFails j "from".data (fun s => isValidAddress (String.mk s)) then
    Except.error "Invalid or missing from address"
  else if strFieldFails j "to".data (fun s => isValidAddress (String.mk s)) then
    Except.error "Invalid or missing to address"
  else if strFieldFails j "value".data (fun s => isValidAmount (String.mk s)) then
    Except.error "Invalid or missing value"
  else if (match getNum j "validAfter".data with
    | some n => decide (n < 0)
    | none => true) then Except.error "Invalid or missing validAfter"
  else if (match getNum j "validBefore".data with
    | some n => decide (n < 0)
    | none => true) then Except.error "Invalid or missing validBefore"
  else if strFieldFails j "nonce".data (fun s => isValidNonce (String.mk s)) then
    Except.error "Invalid or missing nonce"
  else Except.ok ()

/-- validatePaymentPayload of PaymentCodec.ts. -/
def validatePaymentPayload (j : Json) : Except String Unit :=
  if isJsObjectLike j = false then Except.error "Payment payload must be an object"
  else if jGet j "x402Version".data ≠ some (Json.str "2.0".data) ∧
      jGet j "x402Version".data ≠ some (Json.str "1".data) then
    Except.error "Invalid x402Version"
  else if jGet j "scheme".data ≠ some (Json.str "exact".data) then
    Except.error "Only \"exact\" scheme is supported"
  else if strFieldFails j "network".data (fun s => !s.isEmpty) then
    Except.error "Invalid or missing network"
  else
    match jGet j "payload".data with
    | some inner =>
      if isJsObjectLike inner = false then Except.error "Invalid or missing payload object"
      else if strFieldFails inner "signature".data (fun s => isValidSignature (String.mk s)) then
        Except.error "Invalid or missing signature"
      else
        match jGet inner "authorization".data with
        | some auth =>
          if isJsObjectLike auth = false then Except.error "Invalid or missing authorization"
          else validateAuthorization auth
        | none => Except.error "Invalid or missing authorization"
    | none => Except.error "Invalid or missing payload object"

-- JSON images of the records (object literal key order = JSON.stringify
-- output order) and the casts back -----------------------------------------

/-- Append an optional string member. -/
def optStrField (k : List Char) (v : Option String) (tail : JsonObj) : JsonObj :=
  match v with
  | some s => JsonObj.cons k (Json.str s.data) tail
  | none => tail

/-- Append an optional object-valued member. -/
def optObjField (k : List Char) (v : Option JsonObj) (tail : JsonObj) : JsonObj :=
  match v with
  | some ms => JsonObj.cons k (Json.obj ms) tail
  | none => tail

/-- JSON image of a PaymentRequirements record. -/
def reqToJson (r : PaymentRequirements) : Json :=
  Json.obj (
    JsonObj.cons "scheme".data (Json.str r.scheme.data) (
    JsonObj.cons "network".data (Json.str r.network.data) (
    JsonObj.cons "asset".data (Json.str r.asset.data) (
    JsonObj.cons "maxAmountRequired".data (Json.str r.maxAmountRequired.data) (
    JsonObj.cons "payTo".data (Json.str r.payTo.data) (
    optStrField "description".data r.description (
    optStrField "resource".data r.resource (
    optStrField "mimeType".data r.mimeType (
    optObjField "outputSchema".data r.outputSchema JsonObj.nil)))))))))

/-- The cast of a validated requirement JSON value to the typed record. -/
def reqOfJson (j : Json) : PaymentRequirements :=
  { scheme := getStrD j "scheme".data
    network := getStrD j "network".data
    asset := getStrD j "asset".data
    maxAmountRequired := getStrD j "maxAmountRequired".data
    payTo := getStrD j "payTo".data
    description := (getStr j "description".data).map String.mk
    resource := (getStr j "resource".data).map String.mk
    mimeType := (getStr j "mimeType".data).map String.mk
    outputSchema := match jGet j "outputSchema".data with
      | some (Json.obj ms) => some ms
      | _ => none }

/-- JSON image of a TransferAuthorization. -/
def authToJson (a : TransferAuthorization) : Json :=
  Json.obj (
    JsonObj.cons "from".data (Json.str a.from_.data) (
    JsonObj.cons "to".data (Json.str a.to_.data) (
    JsonObj.cons "value".data (Json.str a.value.data) (
    JsonObj.cons "validAfter".data (Json.num a.validAfter) (
    JsonObj.cons "validBefore".data (Json.num a.validBefore) (
    JsonObj.cons "nonce".data (Json.str a.nonce.data) JsonObj.nil))))))

/-- Cast of an authorization JSON value to the record. -/
def authOfJson (j : Json) : TransferAuthorization :=
  { from_ := getStrD j "from".data
    to_ := getStrD j "to".data
    value := getStrD j "value".data
    validAfter := (getNum j "validAfter".data).getD 0
    validBefore := (getNum j "validBefore".data).getD 0
    nonce := getStrD j "nonce".data }

/-- JSON image of a PaymentPayload. -/
def payloadToJson (p : PaymentPayload) : Json :=
  Json.obj (
    JsonObj.cons "x402Version".data (Json.str p.x402Version.data) (
    JsonObj.cons "scheme".data (Json.str p.scheme.data) (
    JsonObj.cons "network".data (Json.str p.network.data) (
    JsonObj.cons "payload".data (Json.obj (
      JsonObj.cons "signature".data (Json.str p.payload.signature.data) (
      JsonObj.cons "authorization".data (authToJson p.payload.authorization) JsonObj.nil)))
      JsonObj.nil))))

/-- Cast of a payload JSON value to the record. -/
def payloadOfJson (j : Json) : PaymentPayload :=
  { x402Version := getStrD j "x402Version".data
    scheme := getStrD j "scheme".data
    network := getStrD j "network".data
    payload :=
      let inner := (jGet j "payload".data).getD Json.null
      { signature := getStrD inner "signature".data
        authorization := authOfJson ((jGet inner "authorization".data).getD Json.null) } }

/-- JSON image of a SettlementResponse. -/
def settlementToJson (s : SettlementResponse) : Json :=
  Json.obj (
    JsonObj.cons "success".data (Json.bool s.success) (
    optStrField "transaction".data s.transaction (
    JsonObj.cons "network".data (Json.str s.network.data) (
    JsonObj.cons "payer".data (Json.str s.payer.data) (
    (match s.timestamp with
      | some t => JsonObj.cons "timestamp".data (Json.num t)
      | none => id) (
    optStrField "errorReason".data s.errorReason JsonObj.nil))))))

/-- Reading a JSON value as a SettlementResponse record: succeeds exactly
when the value has the record shape (required fields of the right types). -/
def settlementOfJson (j : Json) : Option SettlementResponse :=
  match jGet j "success".data, getStr j "network".data, getStr j "payer".data with
  | some (Json.bool b), some nw, some py =>
    some { success := b
           transaction := (getStr j "transaction".data).map String.mk
           network := String.mk nw
           payer := String.mk py
           timestamp := getNum j "timestamp".data
           errorReason := (getStr j "errorReason".data).map String.mk }
  | _, _, _ => none

-- The codec wire functions (PaymentCodec.ts) --------------------------------

/-- List of elements of a JsonArr. -/
def jsonArrToList : JsonArr → List Json
  | JsonArr.nil => []
  | JsonArr.cons x xs => x :: jsonArrToList xs

/-- JsonArr from a list of elements. -/
def jsonArrOfList : List Json → JsonArr
  | [] => JsonArr.nil
  | x :: xs => JsonArr.cons x (jsonArrOfList xs)

theorem jsonArrToList_ofList (l : List Json) : jsonArrToList (jsonArrOfList l) = l := by
  induction l with
  | nil => rfl
  | cons x xs ih => simp [jsonArrOfList, jsonArrToList, ih]

/-- encodePaymentRequirements: JSON.stringify then base64. -/
def encodePaymentRequirements (requirements : List PaymentRequirements) : String :=
  String.mk (encodeWireChars (serJson (Json.arr (jsonArrOfList (requirements.map reqToJson)))))

/-- Validate every element of the parsed requirements array. -/
def validateReqList : List Json → Except String Unit
  | [] => Except.ok ()
  | j :: r => do
    validatePaymentRequirements j
    validateReqList r

/-- decodePaymentRequirements: base64 decode, JSON.parse, array check, and
full per-element schema validation; the validated elements are returned as
typed records (the TS cast). -/
def decodePaymentRequirements (encoded : String) : Except String (List PaymentRequirements) :=
  match decodeWireChars encoded.data with
  | none => Except.error "Invalid Base64 or JSON in payment requirements"
  | some txt =>
    match jsonParse txt with
    | none => Except.error "Invalid Base64 or JSON in payment requirements"
    | some j =>
      match j with
      | Json.arr xs => do
        validateReqList (jsonArrToList xs)
        pure ((jsonArrToList xs).map reqOfJson)
      | _ => Except.error "Payment requirements must be an array"

/-- encodePaymentPayload: JSON.stringify then base64. -/
def encodePaymentPayload (payload : PaymentPayload) : String :=
  String.mk (encodeWireChars (serJson (payloadToJson payload)))

/-- decodePaymentPayload: base64 decode, JSON.parse, full schema validation,
then the TS cast to the typed record. -/
def decodePaymentPayload (encoded : String) : Except String PaymentPayload :=
  match decodeWireChars encoded.data with
  | none => Except.error "Invalid Base64 or JSON in payment payload"
  | some txt =>
    match jsonParse txt with
    | none => Except.error "Invalid Base64 or JSON in payment payload"
    | some j => do
      validatePaymentPayload j
      pure (payloadOfJson j)

/-- encodeSettlementResponse: JSON.stringify then base64. -/
def encodeSettlementResponse (response : SettlementResponse) : String :=
  String.mk (encodeWireChars (serJson (settlementToJson response)))

/-- decodeSettlementResponse: base64 decode and JSON.parse ONLY — the source
returns the parsed value behind a type cast without any schema validation,
so the model returns the raw JSON value. -/
def decodeSettlementResponse (encoded : String) : Except String Json :=
  match decodeWireChars encoded.data with
  | none => Except.error "Invalid Base64 or JSON in settlement response"
  | some txt =>
    match jsonParse txt with
    | none => Except.error "Invalid Base64 or JSON in settlement response"
    | some j => Except.ok j

/-- createPaymentRequirements of PaymentCodec.ts. -/
def createPaymentRequirements (network asset amount recipient : String)
    (description : Option String) (resource : Option String) : PaymentRequirements :=
  { scheme := "exact"
    network := network
    asset := asset
    maxAmountRequired := amount
    payTo := recipient
    description := description
    resource := resource
    mimeType := none
    outputSchema := none }


-- Schema-validity predicates and record-level round trips --------------------

theorem String.mk_data (s : String) : String.mk s.data = s := by cases s; rfl

theorem data_isEmpty_false (s : String) (h : s ≠ "") : s.data.isEmpty = false := by
  cases s with
  | mk l =>
    cases l with
    | nil => exact absurd rfl h
    | cons c r => rfl

/-- Schema validity of a PaymentRequirements record, exactly the conditions
validatePaymentRequirements checks. -/
def reqSchemaOk (r : PaymentRequirements) : Prop :=
  r.scheme = "exact" ∧ r.network ≠ "" ∧ isValidAddress r.asset = true ∧
    isValidAmount r.maxAmountRequired = true ∧ isValidAddress r.payTo = true

/-- Schema validity of a PaymentPayload record, exactly the conditions
validatePaymentPayload checks. -/
def payloadSchemaOk (p : PaymentPayload) : Prop :=
  (p.x402Version = "2.0" ∨ p.x402Version = "1") ∧ p.scheme = "exact" ∧ p.network ≠ "" ∧
    isValidSignature p.payload.signature = true ∧
    isValidAddress p.payload.authorization.from_ = true ∧
    isValidAddress p.payload.authorization.to_ = true ∧
    isValidAmount p.payload.authorization.value = true ∧
    0 ≤ p.payload.authorization.validAfter ∧ 0 ≤ p.payload.authorization.validBefore ∧
    isValidNonce p.payload.authorization.nonce = true

theorem validate_reqToJson (r : PaymentRequirements) (h : reqSchemaOk r) :
    validatePaymentRequirements (reqToJson r) = Except.ok () := by
  obtain ⟨h1, h2, h3, h4, h5⟩ := h
  simp only [validatePaymentRequirements, reqToJson, jGet, jObjGet, isJsObjectLike,
    strFieldFails, getStr, h1]
  simp [String.mk_data, h3, h4, h5, data_isEmpty_false r.network h2]

theorem reqOfJson_reqToJson (r : PaymentRequirements) : reqOfJson (reqToJson r) = r := by
  obtain ⟨sc, nw, ast, ma, pt, od, orr, om, oo⟩ := r
  cases od <;> cases orr <;> cases om <;> cases oo <;>
    simp [reqOfJson, reqToJson, getStrD, getStr, getNum, jGet, jObjGet, optStrField,
      optObjField, String.mk_data]

theorem validate_payloadToJson (p : PaymentPayload) (h : payloadSchemaOk p) :
    validatePaymentPayload (payloadToJson p) = Except.ok () := by
  obtain ⟨h1, h2, h3, h4, h5, h6, h7, h8, h9, h10⟩ := h
  simp only [validatePaymentPayload, validateAuthorization, payloadToJson, authToJson, jGet,
    jObjGet, isJsObjectLike, strFieldFails, getStr, getNum, h2]
  rcases h1 with h1 | h1 <;>
    simp [h1, jGet, jObjGet, getStr, getNum, isJsObjectLike, strFieldFails, String.mk_data,
      h4, h5, h6, h7, h10, data_isEmpty_false p.network h3, not_lt.mpr h8, not_lt.mpr h9]

theorem payloadOfJson_payloadToJson (p : PaymentPayload) :
    payloadOfJson (payloadToJson p) = p := by
  obtain ⟨v, sc, nw, ⟨sig, ⟨fr, t, vl, va, vb, nc⟩⟩⟩ := p
  simp [payloadOfJson, payloadToJson, authOfJson, authToJson, getStrD, getStr, getNum, jGet,
    jObjGet, String.mk_data]

theorem settlementOfJson_settlementToJson (s : SettlementResponse) :
    settlementOfJson (settlementToJson s) = some s := by
  obtain ⟨su, tr, nw, py, ts, er⟩ := s
  cases tr <;> cases ts <;> cases er <;>
    simp [settlementOfJson, settlementToJson, getStr, getNum, jGet, jObjGet, optStrField,
      String.mk_data]

-- Codec round trips ----------------------------------------------------------

theorem validateReqList_map (rs : List PaymentRequirements) (h : ∀ r ∈ rs, reqSchemaOk r) :
    validateReqList (rs.map reqToJson) = Except.ok () := by
  induction rs with
  | nil => rfl
  | cons r rs ih =>
    have hr : reqSchemaOk r := h r (by simp)
    have hrs : ∀ x ∈ rs, reqSchemaOk x := fun x hx => h x (by simp [hx])
    simp only [List.map_cons, validateReqList, validate_reqToJson r hr, ih hrs]
    rfl

/-- Decode is a left inverse of encode on schema-valid requirement lists. -/
theorem decodePaymentRequirements_encode (rs : List PaymentRequirements)
    (h : ∀ r ∈ rs, reqSchemaOk r) :
    decodePaymentRequirements (encodePaymentRequirements rs) = Except.ok rs := by
  simp only [decodePaymentRequirements, encodePaymentRequirements]
  simp only [wire_roundtrip, jsonParse_serJson]
  simp only [jsonArrToList_ofList, validateReqList_map rs h]
  simp only [List.map_map]
  have hmap : List.map (reqOfJson ∘ reqToJson) rs = rs := by
    clear h
    induction rs with
    | nil => rfl
    | cons r rs ih2 => simp [Function.comp, reqOfJson_reqToJson r, ih2]
  rw [hmap]
  rfl

/-- Decode is a left inverse of encode on schema-valid payloads. -/
theorem decodePaymentPayload_encode (p : PaymentPayload) (h : payloadSchemaOk p) :
    decodePaymentPayload (encodePaymentPayload p) = Except.ok p := by
  simp only [decodePaymentPayload, encodePaymentPayload]
  simp only [wire_roundtrip, jsonParse_serJson, validate_payloadToJson p h,
    payloadOfJson_payloadToJson p]
  rfl

/-- decodeSettlementResponse returns exactly the parsed JSON image of what
was encoded (the source performs no validation or conversion here). -/
theorem decodeSettlementResponse_encode (s : SettlementResponse) :
    decodeSettlementResponse (encodeSettlementResponse s) =
      Except.ok (settlementToJson s) := by
  simp only [decodeSettlementResponse, encodeSettlementResponse]
  simp only [wire_roundtrip, jsonParse_serJson]


-- ===========================================================================
-- JS number semantics: IEEE-754 binary64 model for usdToBaseUnits
-- ===========================================================================

/-- Unreduced rational (num / den with den > 0 by construction). Used to
represent exact values of IEEE-754 binary64 doubles. -/
structure Q where
  num : Int
  den : Nat

/-- Product of rationals. -/
def Q.mul (a b : Q) : Q := ⟨a.num * b.num, a.den * b.den⟩

/-- Negation. -/
def Q.neg (a : Q) : Q := ⟨-a.num, a.den⟩

/-- Strict order (dens are positive). -/
def Q.blt (a b : Q) : Bool := a.num * (b.den : Int) < b.num * (a.den : Int)

/-- Floor to an integer. -/
def Q.floor (a : Q) : Int := Int.fdiv a.num (a.den : Int)

/-- Round half toward positive infinity (the ES Math.round rule). -/
def Q.halfUpRound (a : Q) : Int := Int.fdiv (2 * a.num + (a.den : Int)) (2 * (a.den : Int))

/-- Round to the nearest integer, ties to even (IEEE-754 default rounding). -/
def Q.roundHalfEven (a : Q) : Int :=
  let f := Q.floor a
  let r2 := 2 * (a.num - f * (a.den : Int))
  if r2 < (a.den : Int) then f
  else if (a.den : Int) < r2 then f + 1
  else if f % 2 = 0 then f else f + 1

/-- Fuel-structural base-2 logarithm (the core Nat.log2 is well-founded
recursive and does not reduce in the kernel). -/
def log2Aux : Nat → Nat → Nat
  | 0, _ => 0
  | fuel + 1, n => if 2 ≤ n then log2Aux fuel (n / 2) + 1 else 0

/-- Floor of log2 for positive n, with fuel ample for any value arising
from a decimal literal of reasonable length. -/
def natLog2 (n : Nat) : Nat := log2Aux 40000 n

/-- Smallest k (starting at the given k) with n * 2^k ≥ d, computed with
fuel (5000 covers every exponent a binary64 computation can reach). -/
def smallKAux : Nat → Nat → Nat → Nat → Nat
  | 0, _, _, k => k
  | fuel + 1, n, d, k => if d ≤ n * 2 ^ k then k else smallKAux fuel n d (k + 1)

/-- Binary exponent e with 2^e ≤ n/d < 2^(e+1) for positive n, d. -/
def binExp (n d : Nat) : Int :=
  if d ≤ n then Int.ofNat (natLog2 (n / d))
  else -(Int.ofNat (smallKAux 5000 n d 1))

/-- Round an exact rational to the nearest IEEE-754 binary64 value
(round-to-nearest, ties-to-even; gradual underflow to subnormals; the
caller checks for overflow past 2^1024). -/
def roundB64 (q : Q) : Q :=
  if q.num = 0 then ⟨0, 1⟩
  else
    let sign : Int := if q.num < 0 then -1 else 1
    let n := q.num.natAbs
    let d := q.den
    let e : Int := binExp n d
    let ulpExp : Int := if e ≤ -1023 then -1074 else e - 52
    let scaled : Q :=
      if ulpExp ≤ 0 then ⟨((n * 2 ^ (-ulpExp).toNat : Nat) : Int), d⟩
      else ⟨(n : Int), d * 2 ^ ulpExp.toNat⟩
    let m : Int := Q.roundHalfEven scaled
    if ulpExp ≤ 0 then ⟨sign * m, 2 ^ (-ulpExp).toNat⟩
    else ⟨sign * m * ((2 ^ ulpExp.toNat : Nat) : Int), 1⟩

/-- A JS number: NaN, a signed infinity, or a finite binary64 value given
by its exact rational value. -/
inductive JsFloat where
  | nan
  | inf (neg : Bool)
  | fin (v : Q)

/-- Magnitude at or beyond 2^1024 (overflow to infinity after rounding). -/
def overflows (v : Q) : Bool :=
  2 ^ 1024 * v.den ≤ v.num.natAbs

/-- isNaN. -/
def jsIsNaN (f : JsFloat) : Bool :=
  match f with
  | JsFloat.nan => true
  | _ => false

/-- The JS comparison x < 0 (false for NaN; -0 is not below zero). -/
def jsLtZero (f : JsFloat) : Bool :=
  match f with
  | JsFloat.nan => false
  | JsFloat.inf neg => neg
  | JsFloat.fin v => v.num < 0

/-- JS whitespace accepted by parseFloat (the common subset). -/
def jsWsChar (c : Char) : Bool :=
  c = ' ' ∨ c = '\t' ∨ c = '\n' ∨ c = '\r' ∨ c = '\x0b' ∨ c = '\x0c'

/-- Longest-prefix exponent part: e or E with optional sign and at least
one digit, else contributes nothing. -/
def parseExpPart (s : List Char) : Int :=
  match s with
  | 'e' :: r => parseSignedDigits r
  | 'E' :: r => parseSignedDigits r
  | _ => 0
where
  parseSignedDigits (r : List Char) : Int :=
    match r with
    | '-' :: r2 =>
      match r2.span Char.isDigit with
      | ([], _) => 0
      | (ds, _) => -(digitsVal ds : Int)
    | '+' :: r2 =>
      match r2.span Char.isDigit with
      | ([], _) => 0
      | (ds, _) => (digitsVal ds : Int)
    | r2 =>
      match r2.span Char.isDigit with
      | ([], _) => 0
      | (ds, _) => (digitsVal ds : Int)

/-- True when the list starts with the literal Infinity. -/
def infLiteral (s : List Char) : Bool :=
  match s with
  | 'I' :: 'n' :: 'f' :: 'i' :: 'n' :: 'i' :: 't' :: 'y' :: _ => true
  | _ => false

/-- parseFloat: skip whitespace, optional sign, Infinity literal or a
decimal literal (longest valid prefix), correctly rounded to binary64. -/
def parseFloatModel (s : List Char) : JsFloat :=
  let s1 := s.dropWhile jsWsChar
  let signAndRest : Bool × List Char :=
    match s1 with
    | '-' :: r => (true, r)
    | '+' :: r => (false, r)
    | r => (false, r)
  let neg := signAndRest.1
  let s2 := signAndRest.2
  if infLiteral s2 then JsFloat.inf neg
  else
    let intPart := s2.span Char.isDigit
    let intDs := intPart.1
    let fracDs : List Char :=
      match intPart.2 with
      | '.' :: r => (r.span Char.isDigit).1
      | _ => []
    let expRest : List Char :=
      match intPart.2 with
      | '.' :: r => (r.span Char.isDigit).2
      | other => other
    if intDs.isEmpty ∧ fracDs.isEmpty then JsFloat.nan
    else
      let expVal : Int := parseExpPart expRest
      let m : Nat := digitsVal (intDs ++ fracDs)
      let e10 : Int := expVal - fracDs.length
      let q : Q :=
        if 0 ≤ e10 then ⟨((m * 10 ^ e10.toNat : Nat) : Int), 1⟩
        else ⟨(m : Int), 10 ^ (-e10).toNat⟩
      let v := roundB64 (if neg then Q.neg q else q)
      if overflows v then JsFloat.inf neg else JsFloat.fin v

/-- Binary64 multiplication: exact product, rounded. -/
def jsMul (a b : JsFloat) : JsFloat :=
  match a, b with
  | JsFloat.nan, _ => JsFloat.nan
  | _, JsFloat.nan => JsFloat.nan
  | JsFloat.inf s, JsFloat.inf t => JsFloat.inf (xor s t)
  | JsFloat.inf s, JsFloat.fin v =>
    if v.num = 0 then JsFloat.nan else JsFloat.inf (xor s (decide (v.num < 0)))
  | JsFloat.fin v, JsFloat.inf s =>
    if v.num = 0 then JsFloat.nan else JsFloat.inf (xor s (decide (v.num < 0)))
  | JsFloat.fin u, JsFloat.fin v =>
    let p := roundB64 (Q.mul u v)
    if overflows p then JsFloat.inf (decide ((u.num < 0) ≠ (v.num < 0)))
    else JsFloat.fin p

/-- ES Math.round: the integer nearest x, ties toward positive infinity.
The result of rounding a finite double is always exactly representable. -/
def jsMathRound (f : JsFloat) : JsFloat :=
  match f with
  | JsFloat.fin v => JsFloat.fin ⟨Q.halfUpRound v, 1⟩
  | other => other

/-- Number.prototype.toString for the values usdToBaseUnits produces:
NaN, signed Infinity, or an integer-valued double (printed in positional
decimal; JS switches to exponential notation at 1e21, which no input
evaluated in this development reaches). -/
def jsIntegerToString (f : JsFloat) : String :=
  match f with
  | JsFloat.nan => "NaN"
  | JsFloat.inf true => "-Infinity"
  | JsFloat.inf false => "Infinity"
  | JsFloat.fin v => String.mk (intChars (Q.floor v))

/-- usdToBaseUnits of PaymentCodec.ts: parseFloat, reject NaN and negative
values, multiply by 1e6 in double precision, Math.round, toString. -/
def usdToBaseUnits (usdPrice : String) : Except String String :=
  let price := parseFloatModel usdPrice.data
  if jsIsNaN price || jsLtZero price then
    Except.error ("Invalid USD price: " ++ usdPrice)
  else
    Except.ok (jsIntegerToString (jsMathRound (jsMul price (JsFloat.fin ⟨1000000, 1⟩))))

-- BigInt-based baseUnitsToUsd ------------------------------------------------

/-- BigInt(string): trimmed decimal digits with optional sign; empty means
zero; anything else throws (0x/0o/0b literals are not modelled — no input
here uses them). -/
def jsBigInt (s : List Char) : Option Int :=
  let t := ((s.dropWhile jsWsChar).reverse.dropWhile jsWsChar).reverse
  match t with
  | [] => some 0
  | '-' :: r =>
    if !r.isEmpty && r.all Char.isDigit then some (-(digitsVal r : Int)) else none
  | '+' :: r =>
    if !r.isEmpty && r.all Char.isDigit then some ((digitsVal r : Int)) else none
  | r =>
    if r.all Char.isDigit then some ((digitsVal r : Int)) else none

/-- String.prototype.padStart with a pad character. -/
def padStart (w : Nat) (c : Char) (l : List Char) : List Char :=
  List.replicate (w - l.length) c ++ l

/-- The replace of trailing zeros (the /0+$/ regex). -/
def dropTrailingZeros (l : List Char) : List Char :=
  (l.reverse.dropWhile (· = '0')).reverse

/-- baseUnitsToUsd of PaymentCodec.ts: exact BigInt division by 1e6,
6-digit zero-padded fraction, trailing zeros trimmed but never below two
digits (restored from the padded string). -/
def baseUnitsToUsd (baseUnits : String) : Except String String :=
  match jsBigInt baseUnits.data with
  | none => Except.error ("Cannot convert " ++ baseUnits ++ " to a BigInt")
  | some units =>
    let divisor : Int := 1000000
    let wholePart := units.tdiv divisor
    let fractionalPart := units.tmod divisor
    let fractionalStr := padStart 6 '0' (intChars fractionalPart)
    let trimmed := dropTrailingZeros fractionalStr
    let trimmed2 := if trimmed.length < 2 then fractionalStr.take 2 else trimmed
    Except.ok (String.mk (intChars wholePart ++ '.' :: trimmed2))

/-- Modelled from the spec: the exact conversion usdToBaseUnits is
specified to implement — parse the string as a non-negative decimal
number (digits, optionally a dot and fraction digits), multiply by 10^6
exactly, and round half away from zero, all in arbitrary precision. -/
def specUsdToBaseUnits (usdPrice : String) : Except String String :=
  let s := usdPrice.data
  let intPart := s.span Char.isDigit
  let fracAndRest : List Char × List Char :=
    match intPart.2 with
    | '.' :: r => r.span Char.isDigit
    | other => ([], other)
  if intPart.1.isEmpty ∧ fracAndRest.1.isEmpty then
    Except.error ("Invalid USD price: " ++ usdPrice)
  else if !fracAndRest.2.isEmpty then
    Except.error ("Invalid USD price: " ++ usdPrice)
  else
    let m := digitsVal (intPart.1 ++ fracAndRest.1)
    let den := 10 ^ fracAndRest.1.length
    Except.ok (String.mk (intChars (Q.halfUpRound ⟨(m : Int) * 1000000, den⟩)))

-- ===========================================================================
-- x402 middleware (x402Middleware.ts)
-- ===========================================================================

deriving instance DecidableEq for Except

/-- RouteConfig of types/index.ts. -/
structure RouteConfig where
  path : String
  price : String
  description : Option String
  methods : Option (List String)
deriving DecidableEq

/-- X402Config of types/index.ts (the data fields; the onPayment and
onError callbacks and the facilitator collaborator are modelled as handler
parameters). -/
structure X402Config where
  recipient : String
  price : Option String
  routes : Option (List RouteConfig)
  description : Option String
  network : Option String
deriving DecidableEq

/-- USDC_ADDRESSES of types/index.ts, keys in declaration order (own
properties of the record literal; inherited object properties carry no
logic here and are not modelled). -/
def USDC_ADDRESSES : List (String × String) :=
  [("eip155:8453", "0x833589fCD6eDb6E08f4c7C32D4f71b54bdA02913"),
   ("eip155:84532", "0x036CbD53842c5426634e7929541eC2318f3dCF7e"),
   ("eip155:137", "0x3c499c542cEF5E3811e1192ce70d8cC03d5c3359"),
   ("eip155:1", "0xA0b86991c6218b36c1d19D4a2e9Eb0cE3606eB48"),
   ("eip155:42161", "0xaf88d065e77c8cC2239327C5EDb3A432268e5831"),
   ("eip155:10", "0x0b2C639c533813f4Aa9D7837CAf62653d097Ff85")]

/-- DEFAULT_NETWORK of types/index.ts. -/
def DEFAULT_NETWORK : String := "eip155:8453"

/-- First-match association lookup (the record property read). -/
def assocGet : List (String × String) → String → Option String
  | [], _ => none
  | (k, v) :: r, key => if k = key then some v else assocGet r key

/-- Array.prototype.join with a separator. -/
def joinSep (sep : String) : List String → String
  | [] => ""
  | [s] => s
  | s :: r => s ++ sep ++ joinSep sep r

/-- ASCII uppercase of one character (String.prototype.toUpperCase
restricted to the ASCII strings the middleware case-folds: HTTP method
names and hex addresses). -/
def asciiUpperChar (c : Char) : Char :=
  if 97 ≤ c.toNat ∧ c.toNat ≤ 122 then (charOfNat? (c.toNat - 32)).getD c else c

/-- String.prototype.toUpperCase (ASCII). -/
def toUpperCase (s : String) : String := String.mk (s.data.map asciiUpperChar)

/-- ASCII lowercase of one character. -/
def asciiLowerChar (c : Char) : Char :=
  if 65 ≤ c.toNat ∧ c.toNat ≤ 90 then (charOfNat? (c.toNat + 32)).getD c else c

/-- String.prototype.toLowerCase (ASCII). -/
def toLowerCase (s : String) : String := String.mk (s.data.map asciiLowerChar)

-- Route patterns (pathToRegex) ----------------------------------------------

/-- One atom of the regex pathToRegex builds: a literal character, the
dot-star a * turns into, or the slash-free-plus a :param turns into. -/
inductive PathTok where
  | lit (c : Char)
  | star
  | param
deriving DecidableEq

/-- The word characters of the JS regex class backslash-w. -/
def isWordChar (c : Char) : Bool :=
  c.isAlpha || c.isDigit || c = '_'

/-- Scanner behind pathToRegex, fuelled (one character consumed per unit).
The source escapes regex metacharacters (making them literal atoms),
rewrites * to dot-star and a colon followed by one or more word characters
to the slash-free class; a colon not followed by a word character stays a
literal. -/
def pathToRegexAux : Nat → List Char → List PathTok
  | 0, _ => []
  | _ + 1, [] => []
  | fuel + 1, c :: r =>
    if c = '*' then PathTok.star :: pathToRegexAux fuel r
    else if c = ':' then
      match r with
      | c2 :: r2 =>
        if isWordChar c2 then PathTok.param :: pathToRegexAux fuel (r2.dropWhile isWordChar)
        else PathTok.lit ':' :: pathToRegexAux fuel (c2 :: r2)
      | [] => [PathTok.lit ':']
    else PathTok.lit c :: pathToRegexAux fuel r

/-- pathToRegex of x402Middleware.ts, as the anchored atom list the built
RegExp stands for. -/
def pathToRegex (path : String) : List PathTok :=
  pathToRegexAux (path.data.length + 1) path.data

/-- Characters the unflagged regex dot matches (everything but a line
terminator). -/
def dotChar (c : Char) : Bool :=
  !(c = '\n' ∨ c = '\r' ∨ c = '\u2028' ∨ c = '\u2029')

/-- Anchored match of an atom list against a character list, fuelled: each
step drops an atom or a character, so atoms + characters + 1 units always
suffice. Star and param search all split points, like the backtracking
RegExp engine. -/
def tokensMatchAux : Nat → List PathTok → List Char → Bool
  | 0, _, _ => false
  | _ + 1, [], s => s.isEmpty
  | fuel + 1, PathTok.lit c :: ts, s =>
    match s with
    | x :: xs => x = c && tokensMatchAux fuel ts xs
    | [] => false
  | fuel + 1, PathTok.star :: ts, s =>
    tokensMatchAux fuel ts s ||
      (match s with
       | x :: xs => dotChar x && tokensMatchAux fuel (PathTok.star :: ts) xs
       | [] => false)
  | fuel + 1, PathTok.param :: ts, s =>
    match s with
    | x :: xs => !(x = '/') && (tokensMatchAux fuel ts xs || tokensMatchAux fuel (PathTok.param :: ts) xs)
    | [] => false

/-- The RegExp test: anchored match with ample fuel. -/
def tokensMatch (ts : List PathTok) (s : List Char) : Bool :=
  tokensMatchAux (ts.length + s.length + 1) ts s

-- Route matchers and resolution ---------------------------------------------

/-- RouteMatcher of x402Middleware.ts (the Set of uppercased methods is
kept as the list it was built from; only membership is ever read). -/
structure RouteMatcher where
  pattern : List PathTok
  methods : List String
  config : RouteConfig
deriving DecidableEq

/-- The default protected methods of createRouteMatchers. -/
def defaultMethods : List String := ["GET", "POST", "PUT", "DELETE", "PATCH"]

/-- createRouteMatchers of x402Middleware.ts. -/
def createRouteMatchers (config : X402Config) : List RouteMatcher :=
  match config.routes with
  | none => []
  | some routes =>
    if routes.isEmpty then []
    else routes.map fun route =>
      ⟨pathToRegex route.path, (route.methods.getD defaultMethods).map toUpperCase, route⟩

/-- One matcher accepts the request: its pattern matches the path and its
method set holds the uppercased method. -/
def matcherHits (m : RouteMatcher) (path method : String) : Bool :=
  tokensMatch m.pattern path.data && m.methods.contains (toUpperCase method)

/-- The for loop of findMatchingRoute: first matcher wins. -/
def findFirstMatch (path method : String) : List RouteMatcher → Option RouteConfig
  | [] => none
  | m :: rest => if matcherHits m path method then some m.config else findFirstMatch path method rest

/-- findMatchingRoute of x402Middleware.ts: declared routes first-match in
declaration order; with no declared routes a truthy config.price protects
every request through a blanket route. -/
def findMatchingRoute (path method : String) (matchers : List RouteMatcher)
    (config : X402Config) : Option RouteConfig :=
  if 0 < matchers.length then findFirstMatch path method matchers
  else
    match config.price with
    | some p => if p = "" then none else some ⟨"*", p, config.description, none⟩
    | none => none

-- Configuration validation ---------------------------------------------------

/-- Truthiness of an optional string (undefined and the empty string are
falsy). -/
def strOptTruthy : Option String → Bool
  | none => false
  | some s => !(s = "")

/-- Falsiness of the optional-chained routes length (undefined or zero). -/
def routesFalsy : Option (List RouteConfig) → Bool
  | none => true
  | some l => l.isEmpty

/-- The check isNaN(price) or price at most zero after parseFloat. -/
def priceNotPositive (s : String) : Bool :=
  match parseFloatModel s.data with
  | JsFloat.nan => true
  | JsFloat.inf neg => neg
  | JsFloat.fin v => decide (v.num ≤ 0)

/-- The per-route loop of validateConfig. -/
def validateRoutes : List RouteConfig → Except String Unit
  | [] => Except.ok ()
  | route :: rest =>
    if route.path = "" then Except.error "Each route must have a path"
    else if priceNotPositive route.price then
      Except.error ("Invalid price for route " ++ route.path)
    else validateRoutes rest

/-- validateConfig of x402Middleware.ts (thrown Error messages as the
error value, fail-fast in source order). -/
def validateConfig (config : X402Config) : Except String Unit :=
  if config.recipient = "" then Except.error "recipient is required"
  else if isValidAddress config.recipient = false then
    Except.error "recipient must be a valid Ethereum address"
  else if strOptTruthy config.price = false ∧ routesFalsy config.routes = true then
    Except.error "Either price or routes must be specified"
  else if strOptTruthy config.price = true ∧ priceNotPositive (config.price.getD "") = true then
    Except.error "price must be a positive number"
  else
    match config.routes with
    | some routes => validateRoutes routes
    | none => Except.ok ()

-- Middleware setup and the request handler -----------------------------------

/-- What the x402 factory computes before returning the handler closure. -/
structure MwSetup where
  config : X402Config
  network : String
  asset : String
  matchers : List RouteMatcher
deriving DecidableEq

/-- The x402 factory of x402Middleware.ts: validate the configuration,
resolve network and asset, build the matchers (a thrown Error is the
error value). -/
def x402 (config : X402Config) : Except String MwSetup :=
  match validateConfig config with
  | Except.error e => Except.error e
  | Except.ok _ =>
    let network := config.network.getD DEFAULT_NETWORK
    match assocGet USDC_ADDRESSES network with
    | none =>
      Except.error ("Unsupported network: " ++ network ++ ". Supported: " ++
        joinSep ", " (USDC_ADDRESSES.map fun p => p.1))
    | some asset => Except.ok ⟨config, network, asset, createRouteMatchers config⟩

/-- The request as the handler reads it. -/
structure MwRequest where
  path : String
  method : String
  paymentHeader : Option String
deriving DecidableEq

/-- The JSON bodies the handler sends (the error field is fixed per shape:
Payment Required, Invalid Payment, Settlement Failed, Internal Error). -/
inductive MwBody where
  | empty
  | paymentRequired (message : String) (requirements : List PaymentRequirements)
  | invalidPayment (message : String)
  | settlementFailed (message : String)
  | internalError (message : String)
deriving DecidableEq

/-- Everything one handler invocation does to the response, the request
context and the callbacks. -/
structure MwResult where
  status : Option Nat
  paymentRequiredHeader : Option String
  contentTypeHeader : Option String
  paymentResponseHeader : Option String
  body : MwBody
  nextCalled : Bool
  settleCalled : Bool
  paymentReceipt : Option PaymentReceipt
  onPaymentCalls : List PaymentReceipt
  onErrorCalls : List X402Error
deriving DecidableEq

/-- The untouched response and request context. -/
def mwInit : MwResult :=
  ⟨none, none, none, none, MwBody.empty, false, false, none, [], []⟩

/-- handleError of x402Middleware.ts: the onError callback fires when
configured; its own exceptions are caught and dropped. -/
def handleError (err : X402Error) (hasOnError : Bool) : List X402Error :=
  if hasOnError then [err] else []

/-- validatePaymentAgainstRequirements of x402Middleware.ts, with the
clock (unix seconds) a parameter. The two BigInt conversions throw on a
malformed numeral, which the outer catch turns into a 500 — hence the
Except layer; a returned value is the reported mismatch or none. -/
def validatePaymentAgainstRequirements (payload : PaymentPayload)
    (requirements : PaymentRequirements) (now : Int) : Except String (Option String) :=
  if payload.network ≠ requirements.network then
    Except.ok (some ("Network mismatch: expected " ++ requirements.network ++
      ", got " ++ payload.network))
  else if toLowerCase payload.payload.authorization.to_ ≠ toLowerCase requirements.payTo then
    Except.ok (some ("Recipient mismatch: expected " ++ requirements.payTo ++
      ", got " ++ payload.payload.authorization.to_))
  else
    match jsBigInt payload.payload.authorization.value.data with
    | none =>
      Except.error ("Cannot convert " ++ payload.payload.authorization.value ++ " to a BigInt")
    | some paymentAmount =>
      match jsBigInt requirements.maxAmountRequired.data with
      | none => Except.error ("Cannot convert " ++ requirements.maxAmountRequired ++ " to a BigInt")
      | some requiredAmount =>
        if paymentAmount < requiredAmount then
          Except.ok (some ("Insufficient amount: required " ++ requirements.maxAmountRequired ++
            ", got " ++ payload.payload.authorization.value))
        else if now < payload.payload.authorization.validAfter then
          Except.ok (some ("Payment not yet valid (validAfter: " ++
            String.mk (intChars payload.payload.authorization.validAfter) ++ ")"))
        else if payload.payload.authorization.validBefore < now then
          Except.ok (some ("Payment expired (validBefore: " ++
            String.mk (intChars payload.payload.authorization.validBefore) ++ ")"))
        else Except.ok none

/-- The requirements record the handler builds for verification (payment
header present). -/
def verificationRequirements (st : MwSetup) (amt path : String) : PaymentRequirements :=
  ⟨"exact", st.network, st.asset, amt, st.config.recipient, none, some path, none, none⟩

/-- The handler body inside its try block. The facilitator is mocked by the
settlement argument; hasOnPayment and hasOnError say which callbacks the
configuration carries; nowMs is the Date.now() clock in milliseconds. An
Except.error is a JS exception reaching the outer catch — every throwing
site (usdToBaseUnits, the BigInt conversions) runs before the response is
touched, so discarding the partial state is faithful. -/
def x402HandlerCore (st : MwSetup) (hasOnPayment hasOnError : Bool) (req : MwRequest)
    (settlement : SettlementResponse) (nowMs : Int) : Except String MwResult :=
  match findMatchingRoute req.path req.method st.matchers st.config with
  | none => Except.ok { mwInit with nextCalled := true }
  | some routeConfig =>
    match req.paymentHeader with
    | none =>
      match usdToBaseUnits routeConfig.price with
      | Except.error e => Except.error e
      | Except.ok amount =>
        let requirements := createPaymentRequirements st.network st.asset amount
          st.config.recipient
          (match routeConfig.description with
           | some d => some d
           | none => st.config.description)
          (some req.path)
        Except.ok { mwInit with
          status := some 402
          paymentRequiredHeader := some (encodePaymentRequirements [requirements])
          contentTypeHeader := some "application/json"
          body := MwBody.paymentRequired
            ("This endpoint requires a payment of $" ++ routeConfig.price ++ " USD")
            [requirements] }
    | some header =>
      match decodePaymentPayload header with
      | Except.error _ =>
        Except.ok { mwInit with
          status := some 402
          body := MwBody.invalidPayment "Invalid payment payload format"
          onErrorCalls := handleError ⟨"INVALID_PAYLOAD", "Invalid payment payload format"⟩ hasOnError }
      | Except.ok paymentPayload =>
        match usdToBaseUnits routeConfig.price with
        | Except.error e => Except.error e
        | Except.ok amount =>
          match validatePaymentAgainstRequirements paymentPayload
              (verificationRequirements st amount req.path) (Int.fdiv nowMs 1000) with
          | Except.error e => Except.error e
          | Except.ok (some validationError) =>
            Except.ok { mwInit with
              status := some 402
              body := MwBody.invalidPayment validationError
              onErrorCalls := handleError ⟨"INVALID_PAYLOAD", validationError⟩ hasOnError }
          | Except.ok none =>
            if settlement.success = false then
              Except.ok { mwInit with
                status := some 402
                settleCalled := true
                body := MwBody.settlementFailed
                  (settlement.errorReason.getD "Payment could not be settled on-chain")
                onErrorCalls := handleError
                  ⟨"SETTLEMENT_FAILED", settlement.errorReason.getD "Payment settlement failed"⟩
                  hasOnError }
            else
              let receipt : PaymentReceipt :=
                ⟨settlement.payer, routeConfig.price, settlement.transaction.getD "",
                  st.network, settlement.timestamp.getD nowMs, req.path⟩
              Except.ok { mwInit with
                settleCalled := true
                paymentResponseHeader := some (encodeSettlementResponse settlement)
                paymentReceipt := some receipt
                onPaymentCalls := if hasOnPayment then [receipt] else []
                nextCalled := true }

/-- The returned handler: the try body, with the outer catch turning a
thrown error into the 500 response plus the NETWORK_ERROR callback. The
onPaymentThrows flag says whether the onPayment callback throws when
invoked; the source catches and logs such a throw, so it reaches nothing
the result records. -/
def x402Handler (st : MwSetup) (hasOnPayment hasOnError onPaymentThrows : Bool)
    (req : MwRequest) (settlement : SettlementResponse) (nowMs : Int) : MwResult :=
  let _ := onPaymentThrows
  match x402HandlerCore st hasOnPayment hasOnError req settlement nowMs with
  | Except.ok r => r
  | Except.error msg =>
    { mwInit with
      status := some 500
      body := MwBody.internalError "An error occurred while processing the payment"
      onErrorCalls := handleError ⟨"NETWORK_ERROR", msg⟩ hasOnError }

-- Concrete fixtures used by the claim instances ------------------------------

/-- A well-formed recipient address. -/
def fixRecipient : String := "0x1234567890123456789012345678901234567890"

/-- A well-formed from address. -/
def fixFrom : String := "0xabcdefabcdefabcdefabcdefabcdefabcdefabcd"

/-- A well-formed 65-byte signature. -/
def fixSig : String := "0xaaaaaaaaaaaaaaaaaaaaaaaaaaaaaaaaaaaaaaaaaaaaaaaaaaaaaaaaaaaaaaaaaaaaaaaaaaaaaaaaaaaaaaaaaaaaaaaaaaaaaaaaaaaaaaaaaaaaaaaaaaaaaaaaaa"

/-- A well-formed 32-byte nonce. -/
def fixNonce : String := "0xbbbbbbbbbbbbbbbbbbbbbbbbbbbbbbbbbbbbbbbbbbbbbbbbbbbbbbbbbbbbbbbb"

/-- A payer address a settlement reports. -/
def fixPayer : String := "0x1111111111111111111111111111111111111111"

/-- A transaction hash a settlement reports. -/
def fixTx : String := "0xcccccccccccccccccccccccccccccccccccccccccccccccccccccccccccccccc"

/-- A blanket-price configuration (one cent for every route). -/
def cfgBlanket : X402Config := ⟨fixRecipient, some "0.01", none, none, none⟩

/-- The setup the x402 factory computes for cfgBlanket. -/
def setupBlanket : MwSetup :=
  ⟨cfgBlanket, "eip155:8453", "0x833589fCD6eDb6E08f4c7C32D4f71b54bdA02913", []⟩

/-- A schema-valid authorization paying the fixture recipient. -/
def mkAuth (value : String) : TransferAuthorization :=
  ⟨fixFrom, fixRecipient, value, 0, 2000000000, fixNonce⟩

/-- A schema-valid payload on the given network for the given value. -/
def mkPayload (network value : String) : PaymentPayload :=
  ⟨"2.0", "exact", network, ⟨fixSig, mkAuth value⟩⟩

/-- Underfunded payload on a mismatched network. -/
def payloadBadNetwork : PaymentPayload := mkPayload "eip155:1" "5"

/-- Underfunded payload on the right network. -/
def payloadLowAmount : PaymentPayload := mkPayload "eip155:8453" "5"

/-- Fully funded payload on the right network. -/
def payloadValid : PaymentPayload := mkPayload "eip155:8453" "10000"

/-- A successful settlement with every optional field present. -/
def stlOk : SettlementResponse := ⟨true, some fixTx, "eip155:8453", fixPayer, some 1699999999, none⟩

/-- A successful settlement with the optional fields absent. -/
def stlMin : SettlementResponse := ⟨true, none, "eip155:8453", fixPayer, none, none⟩

/-- The clock (milliseconds) the concrete runs use; within every fixture
authorization's validity window after division to seconds. -/
def fixNowMs : Int := 1700000000000

-- Middleware lemmas ----------------------------------------------------------

theorem data_mk (l : List Char) : (String.mk l).data = l := rfl

theorem string_data_inj (p q : String) (h : p.data = q.data) : p = q := by
  cases p; cases q; exact congrArg String.mk h

theorem isValidAddress_ne_empty (s : String) (h : isValidAddress s = true) : s ≠ "" := by
  intro he
  subst he
  exact Bool.noConfusion h

theorem findFirstMatch_find? (path method : String) (ms : List RouteMatcher) :
    findFirstMatch path method ms =
      (List.find? (fun m => matcherHits m path method) ms).map RouteMatcher.config := by
  induction ms with
  | nil => rfl
  | cons m rest ih => cases hh : matcherHits m path method <;> simp [findFirstMatch, List.find?, hh, ih]

theorem pathToRegexAux_lits (l : List Char) : ∀ fuel : Nat, l.length < fuel →
    (∀ c ∈ l, c ≠ '*' ∧ c ≠ ':') → pathToRegexAux fuel l = l.map PathTok.lit := by
  induction l with
  | nil =>
    intro fuel hf _
    cases fuel with
    | zero => omega
    | succ f => rfl
  | cons c r ih =>
    intro fuel hf hc
    cases fuel with
    | zero => omega
    | succ f =>
      obtain ⟨hstar, hcolon⟩ := hc c (by simp)
      have hr : ∀ x ∈ r, x ≠ '*' ∧ x ≠ ':' := fun x hx => hc x (by simp [hx])
      have hrf : r.length < f := by simp only [List.length_cons] at hf; omega
      simp only [pathToRegexAux, if_neg hstar, if_neg hcolon, List.map_cons, ih f hrf hr]

theorem tokensMatchAux_lits (l : List Char) : ∀ (s : List Char) (fuel : Nat), l.length < fuel →
    (tokensMatchAux fuel (l.map PathTok.lit) s = true ↔ s = l) := by
  induction l with
  | nil =>
    intro s fuel hf
    cases fuel with
    | zero => omega
    | succ f =>
      simp only [List.map_nil, tokensMatchAux]
      cases s <;> simp
  | cons c r ih =>
    intro s fuel hf
    cases fuel with
    | zero => omega
    | succ f =>
      have hrf : r.length < f := by simp only [List.length_cons] at hf; omega
      cases s with
      | nil => simp [tokensMatchAux]
      | cons x xs =>
        simp only [List.map_cons, tokensMatchAux, Bool.and_eq_true, decide_eq_true_eq]
        constructor
        · rintro ⟨h1, h2⟩
          rw [h1, (ih xs f hrf).1 h2]
        · intro h
          injection h with h1 h2
          subst h1
          exact ⟨rfl, (ih xs f hrf).2 h2⟩

theorem tokensMatch_lits (l s : List Char) :
    tokensMatch (l.map PathTok.lit) s = true ↔ s = l := by
  unfold tokensMatch
  exact tokensMatchAux_lits l s _ (by simp only [List.length_map]; omega)

theorem handler_no_route (st : MwSetup) (hop hoe thr : Bool) (req : MwRequest)
    (stl : SettlementResponse) (nowMs : Int)
    (h : findMatchingRoute req.path req.method st.matchers st.config = none) :
    x402Handler st hop hoe thr req stl nowMs = { mwInit with nextCalled := true } := by
  simp only [x402Handler, x402HandlerCore, h]

theorem handler_payment_required (st : MwSetup) (hop hoe thr : Bool) (req : MwRequest)
    (stl : SettlementResponse) (nowMs : Int) (rc : RouteConfig) (amt : String)
    (hw : req.paymentHeader = none)
    (hroute : findMatchingRoute req.path req.method st.matchers st.config = some rc)
    (hamt : usdToBaseUnits rc.price = Except.ok amt) :
    x402Handler st hop hoe thr req stl nowMs =
      { mwInit with
        status := some 402
        paymentRequiredHeader := some (encodePaymentRequirements
          [createPaymentRequirements st.network st.asset amt st.config.recipient
            (match rc.description with | some d => some d | none => st.config.description)
            (some req.path)])
        contentTypeHeader := some "application/json"
        body := MwBody.paymentRequired
          ("This endpoint requires a payment of $" ++ rc.price ++ " USD")
          [createPaymentRequirements st.network st.asset amt st.config.recipient
            (match rc.description with | some d => some d | none => st.config.description)
            (some req.path)] } := by
  simp only [x402Handler, x402HandlerCore, hroute, hw, hamt]

theorem handler_invalid_payment (st : MwSetup) (hop hoe thr : Bool) (req : MwRequest)
    (stl : SettlementResponse) (nowMs : Int) (rc : RouteConfig) (w : String)
    (pp : PaymentPayload) (amt msg : String)
    (hw : req.paymentHeader = some w)
    (hroute : findMatchingRoute req.path req.method st.matchers st.config = some rc)
    (hdec : decodePaymentPayload w = Except.ok pp)
    (hamt : usdToBaseUnits rc.price = Except.ok amt)
    (hval : validatePaymentAgainstRequirements pp (verificationRequirements st amt req.path)
      (Int.fdiv nowMs 1000) = Except.ok (some msg)) :
    x402Handler st hop hoe thr req stl nowMs =
      { mwInit with
        status := some 402
        body := MwBody.invalidPayment msg
        onErrorCalls := handleError ⟨"INVALID_PAYLOAD", msg⟩ hoe } := by
  simp only [x402Handler, x402HandlerCore, hroute, hw, hdec, hamt, hval]

theorem handler_success (st : MwSetup) (hop hoe thr : Bool) (req : MwRequest)
    (stl : SettlementResponse) (nowMs : Int) (rc : RouteConfig) (w : String)
    (pp : PaymentPayload) (amt : String)
    (hw : req.paymentHeader = some w)
    (hroute : findMatchingRoute req.path req.method st.matchers st.config = some rc)
    (hdec : decodePaymentPayload w = Except.ok pp)
    (hamt : usdToBaseUnits rc.price = Except.ok amt)
    (hval : validatePaymentAgainstRequirements pp (verificationRequirements st amt req.path)
      (Int.fdiv nowMs 1000) = Except.ok none)
    (hs : stl.success = true) :
    x402Handler st hop hoe thr req stl nowMs =
      { mwInit with
        settleCalled := true
        paymentResponseHeader := some (encodeSettlementResponse stl)
        paymentReceipt := some ⟨stl.payer, rc.price, stl.transaction.getD "",
          st.network, stl.timestamp.getD nowMs, req.path⟩
        onPaymentCalls := if hop then
          [⟨stl.payer, rc.price, stl.transaction.getD "", st.network,
            stl.timestamp.getD nowMs, req.path⟩] else []
        nextCalled := true } := by
  simp only [x402Handler, x402HandlerCore, hroute, hw, hdec, hamt, hval, hs]
  simp

theorem validate_insufficient (pp : PaymentPayload) (req : PaymentRequirements) (now pa ra : Int)
    (h1 : jsBigInt pp.payload.authorization.value.data = some pa)
    (h2 : jsBigInt req.maxAmountRequired.data = some ra)
    (hlt : pa < ra) :
    ∃ msg, validatePaymentAgainstRequirements pp req now = Except.ok (some msg) ∧
      (pp.network = req.network →
        toLowerCase pp.payload.authorization.to_ = toLowerCase req.payTo →
        msg = "Insufficient amount: required " ++ req.maxAmountRequired ++ ", got " ++
          pp.payload.authorization.value) := by
  by_cases hnet : pp.network = req.network
  · by_cases hrec : toLowerCase pp.payload.authorization.to_ = toLowerCase req.payTo
    · have hv : validatePaymentAgainstRequirements pp req now =
          Except.ok (some ("Insufficient amount: required " ++ req.maxAmountRequired ++ ", got " ++
            pp.payload.authorization.value)) := by
        unfold validatePaymentAgainstRequirements
        rw [if_neg (not_not_intro hnet), if_neg (not_not_intro hrec)]
        simp only [h1, h2]
        rw [if_pos hlt]
      exact ⟨_, hv, fun _ _ => rfl⟩
    · have hv : validatePaymentAgainstRequirements pp req now =
          Except.ok (some ("Recipient mismatch: expected " ++ req.payTo ++ ", got " ++
            pp.payload.authorization.to_)) := by
        unfold validatePaymentAgainstRequirements
        rw [if_neg (not_not_intro hnet), if_pos hrec]
      exact ⟨_, hv, fun _ hr => absurd hr hrec⟩
  · have hv : validatePaymentAgainstRequirements pp req now =
        Except.ok (some ("Network mismatch: expected " ++ req.network ++ ", got " ++ pp.network)) := by
      unfold validatePaymentAgainstRequirements
      rw [if_pos hnet]
    exact ⟨_, hv, fun hn => absurd hn hnet⟩

-- Additional fixtures for the claim instances --------------------------------

/-- Routes protecting only POST on one path. -/
def cfgMethods : X402Config :=
  ⟨fixRecipient, none, some [⟨"/api/test", "0.01", none, some ["POST"]⟩], none, none⟩

/-- Two overlapping routes, the wildcard declared first. -/
def cfgOverlap : X402Config :=
  ⟨fixRecipient, none,
    some [⟨"/api/*", "0.02", none, none⟩, ⟨"/api/test", "0.01", none, none⟩], none, none⟩

/-- A schema-valid requirements record. -/
def fixReq : PaymentRequirements :=
  ⟨"exact", "eip155:8453", "0x833589fCD6eDb6E08f4c7C32D4f71b54bdA02913", "10000",
    fixRecipient, some "Test API", some "/api/test", none, none⟩

-- ===========================================================================
-- The claims
-- ===========================================================================

/-- C1: the spec demands that usdToBaseUnits multiply the parsed decimal by
10^6 and round to the nearest integer in arbitrary precision, with no
floating-point drift at any input length. The source routes the value
through parseFloat and Math.round in binary64: on the 19-significant-digit
input 1.00000049999999999 the code produces 1000001 while the exact
conversion the spec demands produces 1000000. -/
theorem C1_float_drift :
    usdToBaseUnits "1.00000049999999999" = Except.ok "1000001" ∧
    specUsdToBaseUnits "1.00000049999999999" = Except.ok "1000000" ∧
    ("1000001" : String) ≠ "1000000" := by decide

/-- C2 (amended): a decoded payload whose authorization value is below the
required amount always yields a 402 with settle never invoked; the reported
reason is the insufficient-amount message only when network and recipient
also match, since those checks run first. -/
theorem C2_underfunded_rejected (st : MwSetup) (hop hoe thr : Bool) (req : MwRequest)
    (stl : SettlementResponse) (nowMs : Int) (rc : RouteConfig) (w : String)
    (pp : PaymentPayload) (amt : String) (pa ra : Int)
    (hw : req.paymentHeader = some w)
    (hroute : findMatchingRoute req.path req.method st.matchers st.config = some rc)
    (hdec : decodePaymentPayload w = Except.ok pp)
    (hamt : usdToBaseUnits rc.price = Except.ok amt)
    (h1 : jsBigInt pp.payload.authorization.value.data = some pa)
    (h2 : jsBigInt amt.data = some ra)
    (hlt : pa < ra) :
    (x402Handler st hop hoe thr req stl nowMs).status = some 402 ∧
    (x402Handler st hop hoe thr req stl nowMs).settleCalled = false ∧
    (pp.network = st.network →
      toLowerCase pp.payload.authorization.to_ = toLowerCase st.config.recipient →
      (x402Handler st hop hoe thr req stl nowMs).body =
        MwBody.invalidPayment ("Insufficient amount: required " ++ amt ++ ", got " ++
          pp.payload.authorization.value)) := by
  obtain ⟨msg, hval, hmsg⟩ := validate_insufficient pp (verificationRequirements st amt req.path)
    (Int.fdiv nowMs 1000) pa ra h1 h2 hlt
  have hrun := handler_invalid_payment st hop hoe thr req stl nowMs rc w pp amt msg
    hw hroute hdec hamt hval
  rw [hrun]
  refine ⟨rfl, rfl, fun hn hr => ?_⟩
  rw [hmsg hn hr]
  rfl

/-- Witness for C2 at concrete inputs: a decoded payload worth 5 base units
against a 10000 base-unit requirement is answered 402 with the
insufficient-amount reason and no settlement. -/
theorem C2_witness :
    (x402Handler setupBlanket true true false
      ⟨"/api/test", "GET", some (encodePaymentPayload payloadLowAmount)⟩ stlOk fixNowMs).status =
        some 402 ∧
    (x402Handler setupBlanket true true false
      ⟨"/api/test", "GET", some (encodePaymentPayload payloadLowAmount)⟩ stlOk fixNowMs).settleCalled =
        false ∧
    (x402Handler setupBlanket true true false
      ⟨"/api/test", "GET", some (encodePaymentPayload payloadLowAmount)⟩ stlOk fixNowMs).body =
      MwBody.invalidPayment "Insufficient amount: required 10000, got 5" := by
  have h := C2_underfunded_rejected setupBlanket true true false
    ⟨"/api/test", "GET", some (encodePaymentPayload payloadLowAmount)⟩ stlOk fixNowMs
    ⟨"*", "0.01", none, none⟩ (encodePaymentPayload payloadLowAmount) payloadLowAmount
    "10000" 5 10000 rfl (by decide) (by decide) (by decide) (by decide) (by decide) (by decide)
  exact ⟨h.1, h.2.1, h.2.2 (by decide) (by decide)⟩

/-- Counterexample to C2 as stated: an underfunded payload on a mismatched
network still gets a 402 and no settlement, but the reported reason is the
network mismatch, not an insufficient-amount reason — the full response is
shown. -/
theorem C2_reason_counterexample :
    jsBigInt "5".data = some 5 ∧ jsBigInt "10000".data = some 10000 ∧ (5 : Int) < 10000 ∧
    usdToBaseUnits "0.01" = Except.ok "10000" ∧
    payloadBadNetwork.payload.authorization.value = "5" ∧
    decodePaymentPayload (encodePaymentPayload payloadBadNetwork) = Except.ok payloadBadNetwork ∧
    x402 cfgBlanket = Except.ok setupBlanket ∧
    x402Handler setupBlanket true true false
        ⟨"/api/test", "GET", some (encodePaymentPayload payloadBadNetwork)⟩ stlOk fixNowMs =
      { mwInit with
        status := some 402
        body := MwBody.invalidPayment "Network mismatch: expected eip155:8453, got eip155:1"
        onErrorCalls := [⟨"INVALID_PAYLOAD",
          "Network mismatch: expected eip155:8453, got eip155:1"⟩] } ∧
    MwBody.invalidPayment "Network mismatch: expected eip155:8453, got eip155:1" ≠
      MwBody.invalidPayment "Insufficient amount: required 10000, got 5" := by decide

/-- C3: the validator performs its four checks in the fixed order network,
recipient (case-insensitive), amount (big-integer), time window, the first
failure short-circuiting with its message, and succeeds exactly when every
check passes; the network message wins even when the amount is also
insufficient, since the network conjunct carries no amount assumption. -/
theorem C3_validator_order (pp : PaymentPayload) (req : PaymentRequirements) (now : Int) :
    (pp.network ≠ req.network →
      validatePaymentAgainstRequirements pp req now =
        Except.ok (some ("Network mismatch: expected " ++ req.network ++ ", got " ++
          pp.network))) ∧
    (pp.network = req.network →
      toLowerCase pp.payload.authorization.to_ ≠ toLowerCase req.payTo →
      validatePaymentAgainstRequirements pp req now =
        Except.ok (some ("Recipient mismatch: expected " ++ req.payTo ++ ", got " ++
          pp.payload.authorization.to_))) ∧
    (∀ pa ra : Int, pp.network = req.network →
      toLowerCase pp.payload.authorization.to_ = toLowerCase req.payTo →
      jsBigInt pp.payload.authorization.value.data = some pa →
      jsBigInt req.maxAmountRequired.data = some ra →
      pa < ra →
      validatePaymentAgainstRequirements pp req now =
        Except.ok (some ("Insufficient amount: required " ++ req.maxAmountRequired ++ ", got " ++
          pp.payload.authorization.value))) ∧
    (∀ pa ra : Int, pp.network = req.network →
      toLowerCase pp.payload.authorization.to_ = toLowerCase req.payTo →
      jsBigInt pp.payload.authorization.value.data = some pa →
      jsBigInt req.maxAmountRequired.data = some ra →
      ra ≤ pa →
      now < pp.payload.authorization.validAfter →
      validatePaymentAgainstRequirements pp req now =
        Except.ok (some ("Payment not yet valid (validAfter: " ++
          String.mk (intChars pp.payload.authorization.validAfter) ++ ")"))) ∧
    (∀ pa ra : Int, pp.network = req.network →
      toLowerCase pp.payload.authorization.to_ = toLowerCase req.payTo →
      jsBigInt pp.payload.authorization.value.data = some pa →
      jsBigInt req.maxAmountRequired.data = some ra →
      ra ≤ pa →
      pp.payload.authorization.validAfter ≤ now →
      pp.payload.authorization.validBefore < now →
      validatePaymentAgainstRequirements pp req now =
        Except.ok (some ("Payment expired (validBefore: " ++
          String.mk (intChars pp.payload.authorization.validBefore) ++ ")"))) ∧
    (∀ pa ra : Int, pp.network = req.network →
      toLowerCase pp.payload.authorization.to_ = toLowerCase req.payTo →
      jsBigInt pp.payload.authorization.value.data = some pa →
      jsBigInt req.maxAmountRequired.data = some ra →
      ra ≤ pa →
      pp.payload.authorization.validAfter ≤ now →
      now ≤ pp.payload.authorization.validBefore →
      validatePaymentAgainstRequirements pp req now = Except.ok none) := by
  refine ⟨fun hnet => ?_, fun hnet hrec => ?_, fun pa ra hnet hrec h1 h2 hlt => ?_,
    fun pa ra hnet hrec h1 h2 hge hna => ?_, fun pa ra hnet hrec h1 h2 hge hna hexp => ?_,
    fun pa ra hnet hrec h1 h2 hge hna hnb => ?_⟩ <;>
    unfold validatePaymentAgainstRequirements
  · rw [if_pos hnet]
  · rw [if_neg (not_not_intro hnet), if_pos hrec]
  · rw [if_neg (not_not_intro hnet), if_neg (not_not_intro hrec)]
    simp only [h1, h2]
    rw [if_pos hlt]
  · rw [if_neg (not_not_intro hnet), if_neg (not_not_intro hrec)]
    simp only [h1, h2]
    rw [if_neg (not_lt.2 hge), if_pos hna]
  · rw [if_neg (not_not_intro hnet), if_neg (not_not_intro hrec)]
    simp only [h1, h2]
    rw [if_neg (not_lt.2 hge), if_neg (not_lt.2 hna), if_pos hexp]
  · rw [if_neg (not_not_intro hnet), if_neg (not_not_intro hrec)]
    simp only [h1, h2]
    rw [if_neg (not_lt.2 hge), if_neg (not_lt.2 hna), if_neg (not_lt.2 hnb)]

/-- Witness for C3: a payload that both mismatches the network and is
underfunded reports the network mismatch, the first check in the order. -/
theorem C3_witness :
    validatePaymentAgainstRequirements payloadBadNetwork
        (verificationRequirements setupBlanket "10000" "/api/test") 1700000000 =
      Except.ok (some "Network mismatch: expected eip155:8453, got eip155:1") :=
  (C3_validator_order payloadBadNetwork
    (verificationRequirements setupBlanket "10000" "/api/test") 1700000000).1 (by decide)

/-- C4 (amended): decodePaymentRequirements and decodePaymentPayload reject
schema-invalid decoded JSON (shown on the wire forms of the bracketed empty
object and of the empty object), but decodeSettlementResponse runs no
schema validation at all: it returns whatever JSON value the wire carries,
including the empty object, which is not a valid settlement record. -/
theorem C4_decode_validation :
    (∀ j : Json, decodeSettlementResponse (String.mk (encodeWireChars (serJson j))) =
      Except.ok j) ∧
    decodeSettlementResponse "e30=" = Except.ok (Json.obj JsonObj.nil) ∧
    settlementOfJson (Json.obj JsonObj.nil) = none ∧
    decodePaymentRequirements "W3t9XQ==" = Except.error "Only \"exact\" scheme is supported" ∧
    decodePaymentPayload "e30=" = Except.error "Invalid x402Version" := by
  refine ⟨fun j => ?_, by decide, by decide, by decide, by decide⟩
  simp only [decodeSettlementResponse, data_mk, wire_roundtrip, jsonParse_serJson]

/-- Counterexample to C4 as stated: the wire form of the empty JSON object
decodes to a settlement success even though the empty object is not a
valid settlement record. -/
theorem C4_counterexample :
    decodeSettlementResponse "e30=" = Except.ok (Json.obj JsonObj.nil) ∧
    settlementOfJson (Json.obj JsonObj.nil) = none := by decide

/-- C5: decode is a left inverse of encode for all three record kinds — on
schema-valid requirement lists and payloads the typed record comes back
equal, and an encoded settlement response decodes to exactly its JSON
image, which re-reads to the original record. -/
theorem C5_roundtrip :
    (∀ rs : List PaymentRequirements, (∀ r ∈ rs, reqSchemaOk r) →
      decodePaymentRequirements (encodePaymentRequirements rs) = Except.ok rs) ∧
    (∀ p : PaymentPayload, payloadSchemaOk p →
      decodePaymentPayload (encodePaymentPayload p) = Except.ok p) ∧
    (∀ s : SettlementResponse,
      decodeSettlementResponse (encodeSettlementResponse s) = Except.ok (settlementToJson s) ∧
      settlementOfJson (settlementToJson s) = some s) :=
  ⟨decodePaymentRequirements_encode, decodePaymentPayload_encode,
   fun s => ⟨decodeSettlementResponse_encode s, settlementOfJson_settlementToJson s⟩⟩

/-- Witness for C5 at concrete records of each kind. -/
theorem C5_witness :
    decodePaymentRequirements (encodePaymentRequirements [fixReq]) = Except.ok [fixReq] ∧
    decodePaymentPayload (encodePaymentPayload payloadValid) = Except.ok payloadValid ∧
    decodeSettlementResponse (encodeSettlementResponse stlOk) =
      Except.ok (settlementToJson stlOk) ∧
    settlementOfJson (settlementToJson stlOk) = some stlOk :=
  ⟨C5_roundtrip.1 [fixReq]
    (by
      intro r hr
      simp only [List.mem_singleton] at hr
      subst hr
      unfold reqSchemaOk
      decide),
   C5_roundtrip.2.1 payloadValid (by unfold payloadSchemaOk; decide),
   (C5_roundtrip.2.2 stlOk).1, (C5_roundtrip.2.2 stlOk).2⟩

/-- C6: with declared routes, resolution is the first rule in declaration
order whose pattern and method both match (the find-first characterization);
a rule path free of the star and colon metacharacters matches exactly its
literal path; the wildcard rule matches any extension; a POST-only rule
leaves GET unmatched but gates POST; with two overlapping rules the
earliest declared price applies; and a request matching no rule makes the
handler call next and touch nothing else. -/
theorem C6_route_resolution :
    (∀ (path method : String) (ms : List RouteMatcher) (cfg : X402Config), ms ≠ [] →
      findMatchingRoute path method ms cfg =
        (List.find? (fun m => matcherHits m path method) ms).map RouteMatcher.config) ∧
    (∀ rp p : String, (∀ c ∈ rp.data, c ≠ '*' ∧ c ≠ ':') →
      (tokensMatch (pathToRegex rp) p.data = true ↔ p = rp)) ∧
    tokensMatch (pathToRegex "/api/*") "/api/anything/here".data = true ∧
    findMatchingRoute "/api/test" "GET" (createRouteMatchers cfgMethods) cfgMethods = none ∧
    findMatchingRoute "/api/test" "POST" (createRouteMatchers cfgMethods) cfgMethods =
      some ⟨"/api/test", "0.01", none, some ["POST"]⟩ ∧
    (findMatchingRoute "/api/test" "GET" (createRouteMatchers cfgOverlap) cfgOverlap).map
      RouteConfig.price = some "0.02" ∧
    (∀ (st : MwSetup) (hop hoe thr : Bool) (req : MwRequest) (stl : SettlementResponse)
      (nowMs : Int),
      findMatchingRoute req.path req.method st.matchers st.config = none →
      x402Handler st hop hoe thr req stl nowMs = { mwInit with nextCalled := true }) := by
  refine ⟨?_, ?_, by decide, by decide, by decide, by decide, ?_⟩
  · intro path method ms cfg hne
    unfold findMatchingRoute
    rw [if_pos (List.length_pos.2 hne)]
    exact findFirstMatch_find? path method ms
  · intro rp p hc
    have hl : pathToRegex rp = rp.data.map PathTok.lit :=
      pathToRegexAux_lits rp.data (rp.data.length + 1) (by omega) hc
    rw [hl, tokensMatch_lits]
    exact ⟨fun h => string_data_inj p rp h, fun h => by rw [h]⟩
  · exact fun st hop hoe thr req stl nowMs h => handler_no_route st hop hoe thr req stl nowMs h

/-- Witness for C6: the literal route path matches itself and rejects a
proper extension. -/
theorem C6_witness :
    tokensMatch (pathToRegex "/api/test") "/api/test".data = true ∧
    tokensMatch (pathToRegex "/api/test") "/api/testx".data = false := by
  have h1 := (C6_route_resolution.2.1 "/api/test" "/api/test" (by decide)).2 rfl
  have h2 := C6_route_resolution.2.1 "/api/test" "/api/testx" (by decide)
  refine ⟨h1, ?_⟩
  cases htm : tokensMatch (pathToRegex "/api/test") "/api/testx".data
  · rfl
  · exact absurd (h2.1 htm) (by decide)

/-- C7: under a blanket price of one cent with a well-formed recipient,
every request without a payment header is answered 402, next is not
called, settlement is not invoked, and the payment-required header decodes
to the single requirement with maxAmountRequired 10000 paying the
configured recipient at the requested path. -/
theorem C7_payment_required (R p m : String) (hop hoe thr : Bool) (stl : SettlementResponse)
    (nowMs : Int) (hR : isValidAddress R = true) :
    x402 ⟨R, some "0.01", none, none, none⟩ =
      Except.ok ⟨⟨R, some "0.01", none, none, none⟩, "eip155:8453",
        "0x833589fCD6eDb6E08f4c7C32D4f71b54bdA02913", []⟩ ∧
    (x402Handler ⟨⟨R, some "0.01", none, none, none⟩, "eip155:8453",
        "0x833589fCD6eDb6E08f4c7C32D4f71b54bdA02913", []⟩ hop hoe thr
        ⟨p, m, none⟩ stl nowMs).status = some 402 ∧
    (x402Handler ⟨⟨R, some "0.01", none, none, none⟩, "eip155:8453",
        "0x833589fCD6eDb6E08f4c7C32D4f71b54bdA02913", []⟩ hop hoe thr
        ⟨p, m, none⟩ stl nowMs).nextCalled = false ∧
    (x402Handler ⟨⟨R, some "0.01", none, none, none⟩, "eip155:8453",
        "0x833589fCD6eDb6E08f4c7C32D4f71b54bdA02913", []⟩ hop hoe thr
        ⟨p, m, none⟩ stl nowMs).settleCalled = false ∧
    decodePaymentRequirements
        ((x402Handler ⟨⟨R, some "0.01", none, none, none⟩, "eip155:8453",
          "0x833589fCD6eDb6E08f4c7C32D4f71b54bdA02913", []⟩ hop hoe thr
          ⟨p, m, none⟩ stl nowMs).paymentRequiredHeader.getD "") =
      Except.ok [⟨"exact", "eip155:8453", "0x833589fCD6eDb6E08f4c7C32D4f71b54bdA02913",
        "10000", R, none, some p, none, none⟩] := by
  have hvc : validateConfig ⟨R, some "0.01", none, none, none⟩ = Except.ok () := by
    have h2 : priceNotPositive "0.01" = false := by decide
    unfold validateConfig
    rw [if_neg (isValidAddress_ne_empty R hR), hR]
    simp [strOptTruthy, routesFalsy, h2]
  have hx : x402 ⟨R, some "0.01", none, none, none⟩ =
      Except.ok ⟨⟨R, some "0.01", none, none, none⟩, "eip155:8453",
        "0x833589fCD6eDb6E08f4c7C32D4f71b54bdA02913", []⟩ := by
    unfold x402
    rw [hvc]
    rfl
  have hrun : x402Handler ⟨⟨R, some "0.01", none, none, none⟩, "eip155:8453",
      "0x833589fCD6eDb6E08f4c7C32D4f71b54bdA02913", []⟩ hop hoe thr
      ⟨p, m, none⟩ stl nowMs =
      { mwInit with
        status := some 402
        paymentRequiredHeader := some (encodePaymentRequirements
          [createPaymentRequirements "eip155:8453"
            "0x833589fCD6eDb6E08f4c7C32D4f71b54bdA02913" "10000" R none (some p)])
        contentTypeHeader := some "application/json"
        body := MwBody.paymentRequired "This endpoint requires a payment of $0.01 USD"
          [createPaymentRequirements "eip155:8453"
            "0x833589fCD6eDb6E08f4c7C32D4f71b54bdA02913" "10000" R none (some p)] } :=
    handler_payment_required ⟨⟨R, some "0.01", none, none, none⟩, "eip155:8453",
      "0x833589fCD6eDb6E08f4c7C32D4f71b54bdA02913", []⟩ hop hoe thr
      ⟨p, m, none⟩ stl nowMs ⟨"*", "0.01", none, none⟩ "10000" rfl rfl (by decide)
  have hschema : ∀ r ∈ [(⟨"exact", "eip155:8453",
      "0x833589fCD6eDb6E08f4c7C32D4f71b54bdA02913", "10000", R, none, some p, none,
      none⟩ : PaymentRequirements)], reqSchemaOk r := by
    intro r hr
    simp only [List.mem_singleton] at hr
    subst hr
    exact ⟨rfl, (by decide : ("eip155:8453" : String) ≠ ""),
      (by decide : isValidAddress "0x833589fCD6eDb6E08f4c7C32D4f71b54bdA02913" = true),
      (by decide : isValidAmount "10000" = true), hR⟩
  refine ⟨hx, ?_, ?_, ?_, ?_⟩
  · rw [hrun]
  · rw [hrun]
    rfl
  · rw [hrun]
    rfl
  · rw [hrun]
    exact decodePaymentRequirements_encode _ hschema

/-- Witness for C7 at concrete inputs. -/
theorem C7_witness :
    x402 ⟨fixRecipient, some "0.01", none, none, none⟩ =
      Except.ok ⟨⟨fixRecipient, some "0.01", none, none, none⟩, "eip155:8453",
        "0x833589fCD6eDb6E08f4c7C32D4f71b54bdA02913", []⟩ ∧
    (x402Handler ⟨⟨fixRecipient, some "0.01", none, none, none⟩, "eip155:8453",
        "0x833589fCD6eDb6E08f4c7C32D4f71b54bdA02913", []⟩ true true false
        ⟨"/api/test", "GET", none⟩ stlOk fixNowMs).status = some 402 ∧
    (x402Handler ⟨⟨fixRecipient, some "0.01", none, none, none⟩, "eip155:8453",
        "0x833589fCD6eDb6E08f4c7C32D4f71b54bdA02913", []⟩ true true false
        ⟨"/api/test", "GET", none⟩ stlOk fixNowMs).nextCalled = false ∧
    (x402Handler ⟨⟨fixRecipient, some "0.01", none, none, none⟩, "eip155:8453",
        "0x833589fCD6eDb6E08f4c7C32D4f71b54bdA02913", []⟩ true true false
        ⟨"/api/test", "GET", none⟩ stlOk fixNowMs).settleCalled = false ∧
    decodePaymentRequirements
        ((x402Handler ⟨⟨fixRecipient, some "0.01", none, none, none⟩, "eip155:8453",
          "0x833589fCD6eDb6E08f4c7C32D4f71b54bdA02913", []⟩ true true false
          ⟨"/api/test", "GET", none⟩ stlOk fixNowMs).paymentRequiredHeader.getD "") =
      Except.ok [⟨"exact", "eip155:8453", "0x833589fCD6eDb6E08f4c7C32D4f71b54bdA02913",
        "10000", fixRecipient, none, some "/api/test", none, none⟩] :=
  C7_payment_required fixRecipient "/api/test" "GET" true true false stlOk fixNowMs
    (by decide)

/-- C8: on a fully valid payload whose settlement succeeds with a
transaction hash, the handler sets the settlement-response header, attaches
the receipt carrying the settlement's payer and transaction hash, invokes
the configured onPayment callback exactly once with that receipt, calls
next — and the whole outcome is unchanged when the callback throws. -/
theorem C8_success_path (st : MwSetup) (hoe thr : Bool) (req : MwRequest)
    (stl : SettlementResponse) (nowMs : Int) (rc : RouteConfig) (w : String)
    (pp : PaymentPayload) (amt tx : String)
    (hw : req.paymentHeader = some w)
    (hroute : findMatchingRoute req.path req.method st.matchers st.config = some rc)
    (hdec : decodePaymentPayload w = Except.ok pp)
    (hamt : usdToBaseUnits rc.price = Except.ok amt)
    (hval : validatePaymentAgainstRequirements pp (verificationRequirements st amt req.path)
      (Int.fdiv nowMs 1000) = Except.ok none)
    (hs : stl.success = true)
    (htx : stl.transaction = some tx) :
    x402Handler st true hoe thr req stl nowMs =
      { mwInit with
        settleCalled := true
        paymentResponseHeader := some (encodeSettlementResponse stl)
        paymentReceipt := some ⟨stl.payer, rc.price, tx, st.network,
          stl.timestamp.getD nowMs, req.path⟩
        onPaymentCalls := [⟨stl.payer, rc.price, tx, st.network,
          stl.timestamp.getD nowMs, req.path⟩]
        nextCalled := true } ∧
    x402Handler st true hoe true req stl nowMs = x402Handler st true hoe false req stl nowMs := by
  refine ⟨?_, rfl⟩
  rw [handler_success st true hoe thr req stl nowMs rc w pp amt hw hroute hdec hamt hval hs]
  simp [htx]

/-- Witness for C8 at concrete inputs, including the throw-immunity
conjunct. -/
theorem C8_witness :
    x402Handler setupBlanket true true false
        ⟨"/api/test", "GET", some (encodePaymentPayload payloadValid)⟩ stlOk fixNowMs =
      { mwInit with
        settleCalled := true
        paymentResponseHeader := some (encodeSettlementResponse stlOk)
        paymentReceipt := some ⟨fixPayer, "0.01", fixTx, "eip155:8453", 1699999999, "/api/test"⟩
        onPaymentCalls := [⟨fixPayer, "0.01", fixTx, "eip155:8453", 1699999999, "/api/test"⟩]
        nextCalled := true } ∧
    x402Handler setupBlanket true true true
        ⟨"/api/test", "GET", some (encodePaymentPayload payloadValid)⟩ stlOk fixNowMs =
      x402Handler setupBlanket true true false
        ⟨"/api/test", "GET", some (encodePaymentPayload payloadValid)⟩ stlOk fixNowMs := by
  have h := C8_success_path setupBlanket true false
    ⟨"/api/test", "GET", some (encodePaymentPayload payloadValid)⟩ stlOk fixNowMs
    ⟨"*", "0.01", none, none⟩ (encodePaymentPayload payloadValid) payloadValid "10000" fixTx
    rfl (by decide) (by decide) (by decide) (by decide) (by decide) (by decide)
  exact ⟨h.1, h.2⟩

/-- C9: the documented decimal grid converts exactly in both directions. -/
theorem C9_conversion_grid :
    usdToBaseUnits "1.00" = Except.ok "1000000" ∧
    usdToBaseUnits "0.01" = Except.ok "10000" ∧
    usdToBaseUnits "0.000001" = Except.ok "1" ∧
    baseUnitsToUsd "1500000" = Except.ok "1.50" ∧
    baseUnitsToUsd "1" = Except.ok "0.000001" := by decide

/-- C10: when the successful settlement omits transaction and timestamp,
the request still proceeds and the receipt defaults transactionHash to the
empty string and timestamp to the server clock in milliseconds. -/
theorem C10_receipt_defaults (st : MwSetup) (hop hoe thr : Bool) (req : MwRequest)
    (stl : SettlementResponse) (nowMs : Int) (rc : RouteConfig) (w : String)
    (pp : PaymentPayload) (amt : String)
    (hw : req.paymentHeader = some w)
    (hroute : findMatchingRoute req.path req.method st.matchers st.config = some rc)
    (hdec : decodePaymentPayload w = Except.ok pp)
    (hamt : usdToBaseUnits rc.price = Except.ok amt)
    (hval : validatePaymentAgainstRequirements pp (verificationRequirements st amt req.path)
      (Int.fdiv nowMs 1000) = Except.ok none)
    (hs : stl.success = true)
    (htx : stl.transaction = none)
    (hts : stl.timestamp = none) :
    (x402Handler st hop hoe thr req stl nowMs).nextCalled = true ∧
    (x402Handler st hop hoe thr req stl nowMs).paymentReceipt =
      some ⟨stl.payer, rc.price, "", st.network, nowMs, req.path⟩ := by
  rw [handler_success st hop hoe thr req stl nowMs rc w pp amt hw hroute hdec hamt hval hs]
  exact ⟨rfl, by simp [htx, hts]⟩

/-- Witness for C10 at concrete inputs. -/
theorem C10_witness :
    (x402Handler setupBlanket true true false
      ⟨"/api/test", "GET", some (encodePaymentPayload payloadValid)⟩ stlMin fixNowMs).nextCalled =
        true ∧
    (x402Handler setupBlanket true true false
      ⟨"/api/test", "GET", some (encodePaymentPayload payloadValid)⟩ stlMin fixNowMs).paymentReceipt =
      some ⟨fixPayer, "0.01", "", "eip155:8453", 1700000000000, "/api/test"⟩ := by
  have h := C10_receipt_defaults setupBlanket true true false
    ⟨"/api/test", "GET", some (encodePaymentPayload payloadValid)⟩ stlMin fixNowMs
    ⟨"*", "0.01", none, none⟩ (encodePaymentPayload payloadValid) payloadValid "10000"
    rfl (by decide) (by decide) (by decide) (by decide) (by decide) (by decide) (by decide)
  exact ⟨h.1, h.2⟩


end X402
